import Mathlib

/-!
Verification of the chromaspec color-analysis library.

The Python source is shallowly embedded over exact rational arithmetic:
Python floats become `ℚ`, Python ints become `ℤ`/`ℕ`, fallible functions
return `Except Err`.  Python's `round` builtin (banker's rounding,
round-half-to-even) is modelled by `rhe`; `round(x, 1)` by `round1`.
The only non-rational operation in the source, the sRGB gamma power
`x ** 2.4` inside `calculate_luminance`, is kept abstract as a function
parameter `gamma : ℚ → ℚ`; theorems that depend on luminance assume only
that `gamma` maps `[0,1]` into `[0,1]` and fixes `1`, which the real
power function satisfies.
-/

/-- Error taxonomy of the embedded code (`chromaspec/exceptions.py` plus
Python's builtin `ValueError`). -/
inductive Err where
  | valueError (msg : String)
  | validationError (msg : String)
  deriving Repr, DecidableEq

/-- Round half to even (CPython's `round(x)` with no second argument):
nearest integer, ties going to the even integer. -/
def rhe (x : ℚ) : ℤ :=
  if x - ⌊x⌋ < 1/2 then ⌊x⌋
  else if 1/2 < x - ⌊x⌋ then ⌊x⌋ + 1
  else if 2 ∣ ⌊x⌋ then ⌊x⌋ else ⌊x⌋ + 1

/-- CPython's `round(x, 1)`: round to the nearest multiple of 1/10,
ties to even. -/
def round1 (x : ℚ) : ℚ := (rhe (10 * x) : ℚ) / 10

/-! ## WCAG thresholds and rating (`analyzers/accessibility.py`,
`utils/constants.py`) -/

namespace WCAGThresholds

def AAA : ℚ := 7

def AA : ℚ := 9/2

def AA_LARGE : ℚ := 3

end WCAGThresholds

/-- `get_wcag_rating` from `analyzers/accessibility.py`. -/
def get_wcag_rating (contrast : ℚ) : String :=
  if WCAGThresholds.AAA ≤ contrast then "AAA"
  else if WCAGThresholds.AA ≤ contrast then "AA"
  else if WCAGThresholds.AA_LARGE ≤ contrast then "AA Large"
  else "Fail"

/-! ## Characters and HEX strings (`converters/rgb_converters.py`,
`utils/validators.py`) -/

/-- ASCII hexadecimal digit (`[0-9a-fA-F]`). -/
def isHexDigitChar (c : Char) : Bool :=
  (48 ≤ c.toNat && c.toNat ≤ 57) || (97 ≤ c.toNat && c.toNat ≤ 102) ||
    (65 ≤ c.toNat && c.toNat ≤ 70)

/-- Value of an ASCII hexadecimal digit. -/
def hexVal (c : Char) : ℕ :=
  if 48 ≤ c.toNat && c.toNat ≤ 57 then c.toNat - 48
  else if 97 ≤ c.toNat then c.toNat - 87
  else c.toNat - 55

/-- ASCII whitespace stripped by CPython's `int(str, base)`. -/
def isPySpace (c : Char) : Bool :=
  c = ' ' || c = '\t' || c = '\n' || c = '\r' || c = '\x0b' || c = '\x0c'

def stripPySpaces (cs : List Char) : List Char :=
  ((cs.dropWhile isPySpace).reverse.dropWhile isPySpace).reverse

/-- Hexadecimal digit run with single underscores allowed between digits
(CPython numeric-literal lexing used by `int(str, 16)`). -/
def parseHexDigitsCore : ℕ → List Char → Option ℕ
  | acc, [] => some acc
  | acc, c :: rest =>
    if c = '_' then
      match rest with
      | [] => none
      | d :: rest2 =>
        if isHexDigitChar d then parseHexDigitsCore (acc * 16 + hexVal d) rest2
        else none
    else if isHexDigitChar c then parseHexDigitsCore (acc * 16 + hexVal c) rest
    else none

def parseHexBody : List Char → Option ℕ
  | [] => none
  | c :: rest =>
    if isHexDigitChar c then parseHexDigitsCore (hexVal c) rest else none

/-- After an optional `0x`/`0X` prefix a single underscore may precede the
first digit. -/
def parseAfterPrefix : List Char → Option ℕ
  | [] => none
  | c :: rest => if c = '_' then parseHexBody rest else parseHexBody (c :: rest)

def pyIntHexBody : List Char → Option ℕ
  | c0 :: c1 :: rest =>
    if c0 = '0' ∧ (c1 = 'x' ∨ c1 = 'X') then parseAfterPrefix rest
    else parseHexBody (c0 :: c1 :: rest)
  | cs => parseHexBody cs

/-- Model of CPython's builtin `int(s, 16)` on ASCII strings: strip
whitespace, optional sign, optional `0x` prefix, hex digits with
underscores between digits; `none` models `ValueError`. -/
def pyIntHex (cs : List Char) : Option ℤ :=
  match stripPySpaces cs with
  | [] => none
  | c :: rest =>
    if c = '+' then (pyIntHexBody rest).map ((↑·) : ℕ → ℤ)
    else if c = '-' then (pyIntHexBody rest).map (fun n => -(n : ℤ))
    else (pyIntHexBody (c :: rest)).map ((↑·) : ℕ → ℤ)

/-- `hex_to_rgb` from `converters/rgb_converters.py`: strip leading `#`
characters (Python `lstrip("#")`), double each digit of a 3-character
form, require 6 characters, and parse the three 2-character slices with
`int(_, 16)`. -/
def hex_to_rgb (hex_color : String) : Except Err (ℤ × ℤ × ℤ) :=
  let cs0 := hex_color.data.dropWhile (· = '#')
  let cs := if cs0.length = 3 then cs0.flatMap (fun c => [c, c]) else cs0
  if cs.length = 6 then
    match pyIntHex (cs.take 2), pyIntHex ((cs.drop 2).take 2),
        pyIntHex (cs.drop 4) with
    | some r, some g, some b => .ok (r, g, b)
    | _, _, _ => .error (.valueError ("Invalid HEX color: #" ++ String.mk cs))
  else .error (.valueError ("Invalid HEX color: #" ++ String.mk cs))

/-- `validate_hex_color` from `utils/validators.py`: whether the string
matches the anchored pattern `#[0-9a-fA-F]{3}(?:[0-9a-fA-F]{3})?`
(`true` means the Python function returns, `false` that it raises). -/
def validate_hex_color (s : String) : Bool :=
  match s.data with
  | c :: rest =>
    c = '#' && (rest.length = 3 || rest.length = 6) && rest.all isHexDigitChar
  | [] => false

/-- Uppercase hex digit character for a value below 16. -/
def hexDigitUpper (n : ℕ) : Char :=
  if n < 10 then Char.ofNat (48 + n) else Char.ofNat (55 + n)

def natToHexUpper (n : ℕ) : List Char := (Nat.toDigits 16 n).map Char.toUpper

/-- Model of the Python f-string conversion `{n:02X}`. -/
def pyFormat02X (n : ℤ) : List Char :=
  if n < 0 then '-' :: natToHexUpper (-n).toNat
  else if n < 256 then [hexDigitUpper (n.toNat / 16), hexDigitUpper (n.toNat % 16)]
  else natToHexUpper n.toNat

/-- The `f"#{r:02X}{g:02X}{b:02X}"` formatting used by the palette
helpers. -/
def rgbToHexUpper (rgb : ℤ × ℤ × ℤ) : String :=
  String.mk ('#' :: (pyFormat02X rgb.1 ++ pyFormat02X rgb.2.1 ++ pyFormat02X rgb.2.2))

/-! ## Color-space conversions (`converters/hsl_converters.py`) -/

/-- The inner `hue_to_rgb` helper of `hsl_to_rgb`. -/
def hue2rgb (p q t : ℚ) : ℚ :=
  let t1 := if t < 0 then t + 1 else t
  let t2 := if 1 < t1 then t1 - 1 else t1
  if t2 < 1/6 then p + (q - p) * 6 * t2
  else if t2 < 1/2 then q
  else if t2 < 2/3 then p + (q - p) * (2/3 - t2) * 6
  else p

/-- `hsl_to_rgb` from `converters/hsl_converters.py` (hue in degrees,
saturation and lightness in percent). -/
def hsl_to_rgb (h s lightness : ℚ) : ℤ × ℤ × ℤ :=
  let hn := h / 360
  let sn := s / 100
  let ln := lightness / 100
  if sn = 0 then (rhe (ln * 255), rhe (ln * 255), rhe (ln * 255))
  else
    let q := if ln < 1/2 then ln * (1 + sn) else ln + sn - ln * sn
    let p := 2 * ln - q
    (rhe (hue2rgb p q (hn + 1/3) * 255), rhe (hue2rgb p q hn * 255),
      rhe (hue2rgb p q (hn - 1/3) * 255))

/-- `rgb_to_hsl` from `converters/hsl_converters.py`. -/
def rgb_to_hsl (rgb : ℤ × ℤ × ℤ) : ℚ × ℚ × ℚ :=
  let r : ℚ := rgb.1 / 255
  let g : ℚ := rgb.2.1 / 255
  let b : ℚ := rgb.2.2 / 255
  let maxC := max r (max g b)
  let minC := min r (min g b)
  let lightness := (maxC + minC) / 2
  if maxC = minC then (0, 0, round1 (lightness * 100))
  else
    let d := maxC - minC
    let s := if 1/2 < lightness then d / (2 - maxC - minC) else d / (maxC + minC)
    let h0 :=
      if maxC = r then (g - b) / d + (if g < b then 6 else 0)
      else if maxC = g then (b - r) / d + 2
      else (r - g) / d + 4
    (round1 (h0 / 6 * 360), round1 (s * 100), round1 (lightness * 100))

/-- The per-channel sRGB expansion inside `calculate_luminance`
(`converters/rgb_converters.py`); `gamma` abstracts `x ** 2.4`. -/
def pyAdjust (gamma : ℚ → ℚ) (c : ℤ) : ℚ :=
  let cn : ℚ := c / 255
  if cn ≤ 0.03928 then cn / 12.92 else gamma ((cn + 0.055) / 1.055)

/-- `calculate_luminance` (WCAG 2.1 relative luminance), with the
exponentiation abstracted by `gamma`. -/
def calculate_luminance (gamma : ℚ → ℚ) (rgb : ℤ × ℤ × ℤ) : ℚ :=
  0.2126 * pyAdjust gamma rgb.1 + 0.7152 * pyAdjust gamma rgb.2.1 +
    0.0722 * pyAdjust gamma rgb.2.2

/-- `get_contrast_ratio` from `analyzers/accessibility.py`. -/
def get_contrast_ratio (gamma : ℚ → ℚ) (color1 color2 : String) :
    Except Err ℚ := do
  let rgb1 ← hex_to_rgb color1
  let rgb2 ← hex_to_rgb color2
  let l1 := calculate_luminance gamma rgb1
  let l2 := calculate_luminance gamma rgb2
  pure ((max l1 l2 + 0.05) / (min l1 l2 + 0.05))

/-! ## Palette helpers (`generators/palette.py`) -/

/-- `_adjust_brightness` from `generators/palette.py`: shift HSL
lightness by `amount` percentage points, clamped to `[0, 100]`. -/
def _adjust_brightness (hex_color : String) (amount : ℤ) :
    Except Err String := do
  let rgb ← hex_to_rgb hex_color
  let hsl := rgb_to_hsl rgb
  let newL := max 0 (min 100 (hsl.2.2 + (amount : ℚ)))
  pure (rgbToHexUpper (hsl_to_rgb hsl.1 hsl.2.1 newL))

/-- The acceptance test of `_find_accessible_text`: a candidate is taken
when its rating equals the target, or the target is exactly "AA" and the
rating is any of "AA"/"AAA"/"AA Large". -/
def tryTextColor (gamma : ℚ → ℚ) (hexColor background target : String) :
    Except Err (Option (String × ℚ × String)) := do
  let ratio ← get_contrast_ratio gamma hexColor background
  let wcag := get_wcag_rating ratio
  if wcag = target ∨
      (target = "AA" ∧ (wcag = "AA" ∨ wcag = "AAA" ∨ wcag = "AA Large")) then
    pure (some (hexColor, ratio, wcag))
  else
    pure none

/-- The brightness-adjustment loop of `_find_accessible_text`
(`for i in range(1, max_iterations + 1)`), darker tried before lighter. -/
def findTextLoop (gamma : ℚ → ℚ) (background target : String) :
    ℕ → ℕ → Except Err (Option (String × ℚ × String))
  | _, 0 => .ok none
  | i, fuel + 1 => do
    let darker ← _adjust_brightness background (-(i * 5 : ℤ))
    match ← tryTextColor gamma darker background target with
    | some res => pure (some res)
    | none =>
      let lighter ← _adjust_brightness background ((i * 5 : ℤ))
      match ← tryTextColor gamma lighter background target with
      | some res => pure (some res)
      | none => findTextLoop gamma background target (i + 1) fuel

/-- `_find_accessible_text` from `generators/palette.py`: black, then
white, then the brightness loop, then the black/white fallback by higher
contrast. -/
def _find_accessible_text (gamma : ℚ → ℚ) (background : String)
    (target_rating : String := "AA") (max_iterations : ℕ := 20) :
    Except Err (String × ℚ × String) := do
  match ← tryTextColor gamma "#000000" background target_rating with
  | some res => pure res
  | none =>
  match ← tryTextColor gamma "#FFFFFF" background target_rating with
  | some res => pure res
  | none =>
  match ← findTextLoop gamma background target_rating 1 max_iterations with
  | some res => pure res
  | none =>
  let white_ratio ← get_contrast_ratio gamma "#FFFFFF" background
  let black_ratio ← get_contrast_ratio gamma "#000000" background
  if black_ratio ≤ white_ratio then
    pure ("#FFFFFF", white_ratio, get_wcag_rating white_ratio)
  else
    pure ("#000000", black_ratio, get_wcag_rating black_ratio)

/-! ## Dark-mode compatibility (`analyzers/dark_mode.py`) -/

/-- `DarkModeResult` dataclass. -/
structure DarkModeResult where
  light_background : String
  dark_background : String
  text_color : String
  light_contrast : ℚ
  dark_contrast : ℚ
  light_rating : String
  dark_rating : String
  is_compatible : Bool
  deriving Repr, DecidableEq

/-- The `rating_priority.get(r, dflt)` lookup inside
`_check_rating_compatibility`. -/
def rating_priority_get (rating : String) (dflt : ℤ) : ℤ :=
  if rating = "Fail" then 0
  else if rating = "AA Large" then 1
  else if rating = "AA" then 2
  else if rating = "AAA" then 3
  else dflt

/-- `_check_rating_compatibility` from `analyzers/dark_mode.py`: unknown
`min_rating` defaults to priority 1, unknown ratings default to 0. -/
def _check_rating_compatibility (light_rating dark_rating min_rating : String) :
    Bool :=
  let min_priority := rating_priority_get min_rating 1
  decide (min_priority ≤ rating_priority_get light_rating 0) &&
    decide (min_priority ≤ rating_priority_get dark_rating 0)

/-- `check_dark_mode_compatibility` from `analyzers/dark_mode.py`. -/
def check_dark_mode_compatibility (gamma : ℚ → ℚ) (text_color : String)
    (light_background : String := "#FFFFFF")
    (dark_background : String := "#121212") (min_rating : String := "AA") :
    Except Err DarkModeResult :=
  if validate_hex_color text_color = false then
    .error (.validationError ("Invalid HEX color: " ++ text_color))
  else if validate_hex_color light_background = false then
    .error (.validationError ("Invalid HEX color: " ++ light_background))
  else if validate_hex_color dark_background = false then
    .error (.validationError ("Invalid HEX color: " ++ dark_background))
  else do
    let light_contrast ← get_contrast_ratio gamma text_color light_background
    let dark_contrast ← get_contrast_ratio gamma text_color dark_background
    let light_rating := get_wcag_rating light_contrast
    let dark_rating := get_wcag_rating dark_contrast
    let is_compatible :=
      _check_rating_compatibility light_rating dark_rating min_rating
    pure
      { light_background := light_background
        dark_background := dark_background
        text_color := text_color
        light_contrast := light_contrast
        dark_contrast := dark_contrast
        light_rating := light_rating
        dark_rating := dark_rating
        is_compatible := is_compatible }

/-! ## Classification (`analyzers/classification.py`) -/

/-- `is_dominant_color`: the named component must strictly exceed both
others; an unknown component name raises `ValueError`. -/
def is_dominant_color (rgb : ℤ × ℤ × ℤ) (component : String) :
    Except Err Bool :=
  if component = "red" then .ok (decide (max rgb.2.1 rgb.2.2 < rgb.1))
  else if component = "green" then .ok (decide (max rgb.1 rgb.2.2 < rgb.2.1))
  else if component = "blue" then .ok (decide (max rgb.1 rgb.2.1 < rgb.2.2))
  else .error (.valueError ("Invalid component: " ++ component))

def is_red_color (rgb : ℤ × ℤ × ℤ) : Except Err Bool :=
  is_dominant_color rgb "red"

def is_green_color (rgb : ℤ × ℤ × ℤ) : Except Err Bool :=
  is_dominant_color rgb "green"

def is_blue_color (rgb : ℤ × ℤ × ℤ) : Except Err Bool :=
  is_dominant_color rgb "blue"

/-- Stable insertion (descending by key): an element is placed before the
first strictly smaller key, after equal ones coming earlier. -/
def insertKeyDesc (key : α → ℚ) (a : α) : List α → List α
  | [] => [a]
  | b :: l => if key b ≤ key a then a :: b :: l else b :: insertKeyDesc key a l

/-- Stable sort, descending by key: the model of Python's stable
`sorted(_, key=..., reverse=True)`. -/
def sortKeyDesc (key : α → ℚ) : List α → List α
  | [] => []
  | a :: l => insertKeyDesc key a (sortKeyDesc key l)

/-- The result dictionary of `categorize_colors` (keys red/green/blue). -/
structure Categories where
  red : List (String × ℚ)
  green : List (String × ℚ)
  blue : List (String × ℚ)
  deriving Repr, DecidableEq

/-- The classification loop of `categorize_colors`, before sorting:
first match of red/green/blue dominance wins, non-dominant colors are
dropped. -/
def categorizeStep : List (String × ℚ) →
    Except Err (List (String × ℚ) × List (String × ℚ) × List (String × ℚ))
  | [] => .ok ([], [], [])
  | (color, freq) :: rest => do
    let rgb ← hex_to_rgb color
    let isR ← is_red_color rgb
    if isR then
      let t ← categorizeStep rest
      pure ((color, freq) :: t.1, t.2.1, t.2.2)
    else
      let isG ← is_green_color rgb
      if isG then
        let t ← categorizeStep rest
        pure (t.1, (color, freq) :: t.2.1, t.2.2)
      else
        let isB ← is_blue_color rgb
        if isB then
          let t ← categorizeStep rest
          pure (t.1, t.2.1, (color, freq) :: t.2.2)
        else
          categorizeStep rest

/-- `categorize_colors` from `analyzers/classification.py`: classify in
input (dict-insertion) order, then stable-sort each bucket by frequency
descending. -/
def categorize_colors (m : List (String × ℚ)) : Except Err Categories := do
  let t ← categorizeStep m
  pure
    { red := sortKeyDesc (·.2) t.1
      green := sortKeyDesc (·.2) t.2.1
      blue := sortKeyDesc (·.2) t.2.2 }

/-! ## SVG extraction (`extractors/svg_extractor.py`) -/

instance {ε α : Type} [DecidableEq ε] [DecidableEq α] :
    DecidableEq (Except ε α) := fun a b =>
  match a, b with
  | .ok x, .ok y =>
    if h : x = y then .isTrue (by rw [h]) else .isFalse (by simp [h])
  | .error x, .error y =>
    if h : x = y then .isTrue (by rw [h]) else .isFalse (by simp [h])
  | .ok _, .error _ => .isFalse (by simp)
  | .error _, .ok _ => .isFalse (by simp)

/-- Byte length of the UTF-8 encoding (`len(s.encode("utf-8"))`). -/
def pyUtf8Len (s : String) : ℕ := (s.data.map Char.utf8Size).sum

namespace ImageProcessing

def MAX_SVG_SIZE : ℕ := 10 * 1024 * 1024

def MAX_COLOR_MATCHES : ℕ := 10000

def MAX_COLORS : ℕ := 1000

end ImageProcessing

/-- ASCII model of the regex word character class (`\w`) used by the
`\b` boundary at the end of `HEX_PATTERN`. -/
def isWordChar (c : Char) : Bool := c.isAlphanum || c = '_'

/-- The trailing `\b` of `HEX_PATTERN` holds iff the next character is
absent or not a word character (the preceding hex digit is one). -/
def boundaryOk : List Char → Bool
  | [] => true
  | c :: _ => !isWordChar c

/-- `re.findall` of `ColorConstants.HEX_PATTERN = r"#[0-9a-fA-F]{3,6}\b"`:
at each `#`, the greedy run of up to 6 hex digits succeeds only when the
whole available run has between 3 and 6 digits followed by a word
boundary (any shorter backtracked attempt ends before a hex digit, which
is a word character, so it fails the boundary); matches do not overlap
and scanning resumes after each match. -/
def findallHexLooseGo : ℕ → List Char → List (List Char)
  | 0, _ => []
  | _ + 1, [] => []
  | fuel + 1, c :: rest =>
    if c = '#' then
      let ds := rest.takeWhile isHexDigitChar
      if 3 ≤ ds.length ∧ ds.length ≤ 6 ∧ boundaryOk (rest.drop ds.length) = true
      then ('#' :: ds) :: findallHexLooseGo fuel (rest.drop ds.length)
      else findallHexLooseGo fuel rest
    else findallHexLooseGo fuel rest

def findallHexLoose (cs : List Char) : List (List Char) :=
  findallHexLooseGo cs.length cs

/-- One `counter[x] += 1` update: bump an existing key or append a new
one at the end. -/
def countOccStep [DecidableEq α] (acc : List (α × ℕ)) (x : α) :
    List (α × ℕ) :=
  if acc.any (·.1 = x) then
    acc.map (fun p => if p.1 = x then (p.1, p.2 + 1) else p)
  else acc ++ [(x, 1)]

/-- `collections.Counter` over a list, keys in first-occurrence order. -/
def countOcc [DecidableEq α] (l : List α) : List (α × ℕ) :=
  l.foldl countOccStep []

/-- `extract_hex_colors_from_svg` from `extractors/svg_extractor.py`:
size ceiling, regex scan, match-count ceiling, then percentage
frequencies over a `Counter` of the matches. -/
def extract_hex_colors_from_svg (svg_content : String) :
    Except Err (List (String × ℚ)) :=
  if ImageProcessing.MAX_SVG_SIZE < pyUtf8Len svg_content then
    .error (.validationError "SVG file too large")
  else
    let colors := (findallHexLoose svg_content.data).map String.mk
    if ImageProcessing.MAX_COLOR_MATCHES < colors.length then
      .error (.validationError "Too many color matches detected")
    else if colors.isEmpty then .ok []
    else
      let total := colors.length
      .ok ((countOcc colors).map
        (fun p => (p.1, ((p.2 : ℚ) / (total : ℚ)) * 100)))

/-- Outcome of the black-box XML parse (`ET.parse` + `root.iter()`):
a `ParseError`, some other exception, or the list of elements in
document order, each with its attribute mapping. -/
inductive XmlParseOutcome where
  | parseError
  | otherError
  | parsed (elements : List (List (String × String)))
  deriving Repr, DecidableEq

def COLOR_ATTRIBUTES : List String := ["fill", "stroke", "stop-color", "color"]

/-- HEX matches contributed by one element: each color-bearing attribute
present with a non-empty value other than "none" is regex-scanned. -/
def elemColorMatches (attrib : List (String × String)) : List String :=
  COLOR_ATTRIBUTES.flatMap fun attr =>
    match (attrib.find? (·.1 = attr)).map (·.2) with
    | some v =>
      if v ≠ "" ∧ v.toLower ≠ "none" then (findallHexLoose v.data).map String.mk
      else []
    | none => []

/-- `extract_colors_from_svg_safe` from `extractors/svg_extractor.py`.
An `ET.ParseError` is caught and re-raised as a `ValidationError`
(no fallback); any other exception inside the `try` (including the
match-count `ValidationError`) falls back to the regex scan, as does a
zero-color XML parse; otherwise frequencies come from
`Counter.most_common(max_colors)` (stable, count-descending). -/
def extract_colors_from_svg_safe (svg_content : String)
    (xml : XmlParseOutcome) (max_colors : ℕ := ImageProcessing.MAX_COLORS) :
    Except Err (List (String × ℚ)) :=
  if ImageProcessing.MAX_SVG_SIZE < pyUtf8Len svg_content then
    .error (.validationError "SVG file too large")
  else
    match xml with
    | .parseError =>
      .error (.validationError "Invalid or malicious SVG file. XML parsing failed")
    | .otherError => extract_hex_colors_from_svg svg_content
    | .parsed elems =>
      let colors := countOcc (elems.flatMap elemColorMatches)
      let total := (colors.map (·.2)).sum
      if ImageProcessing.MAX_COLOR_MATCHES < total then
        extract_hex_colors_from_svg svg_content
      else if colors.isEmpty then extract_hex_colors_from_svg svg_content
      else
        .ok (((sortKeyDesc (fun p => (p.2 : ℚ)) colors).take max_colors).map
          (fun p => (p.1, ((p.2 : ℚ) / (total : ℚ)) * 100)))

/-! ## Batch processing (`cli.py`) -/

/-- One slot of the `results` list built by `process_batch`. -/
structure BatchEntry where
  file : String
  error : Option String
  total_colors : ℕ
  red : List (String × ℚ)
  green : List (String × ℚ)
  blue : List (String × ℚ)
  deriving Repr, DecidableEq

def errMessage : Err → String
  | .valueError m => m
  | .validationError m => m

def batchDataEntry (f : String) (cats : Categories) : BatchEntry :=
  { file := f
    error := none
    total_colors := cats.red.length + cats.green.length + cats.blue.length
    red := cats.red
    green := cats.green
    blue := cats.blue }

def batchErrorEntry (f : String) (e : Err) : BatchEntry :=
  { file := f
    error := some (errMessage e)
    total_colors := 0
    red := []
    green := []
    blue := [] }

/-- `process_batch` from `cli.py`, abstracted over the per-file
processing outcome `proc` (extraction + categorization, or
`process_file` when `generate_pdfs`): with `generate_pdfs` the value
returned by `process_file` is discarded, so only failing files append an
entry; otherwise every file appends exactly one entry. -/
def process_batch (proc : String → Except Err Categories)
    (input_files : List String) (generate_pdfs : Bool := false) :
    List BatchEntry :=
  input_files.foldl
    (fun results f =>
      if generate_pdfs then
        match proc f with
        | .ok _ => results
        | .error e => results ++ [batchErrorEntry f e]
      else
        match proc f with
        | .ok cats => results ++ [batchDataEntry f cats]
        | .error e => results ++ [batchErrorEntry f e])
    []

/-- A string of the shape `#` followed by 3 to 6 hex digits. -/
def looseHexShape (s : String) : Prop :=
  ∃ ds, s.data = '#' :: ds ∧ 3 ≤ ds.length ∧ ds.length ≤ 6 ∧
    ∀ c ∈ ds, isHexDigitChar c = true

/-- The spec's ordinal tier order: Fail < "AA Large" < "AA" < "AAA"
(written from the claim's wording, to compare against the code). -/
def ratingTier (r : String) : ℤ :=
  if r = "Fail" then 0
  else if r = "AA Large" then 1
  else if r = "AA" then 2
  else if r = "AAA" then 3
  else -1

/-- Strict red dominance of a parsed color (false when parsing fails). -/
def redDomB (c : String) : Bool :=
  match hex_to_rgb c with
  | .ok t => decide (max t.2.1 t.2.2 < t.1)
  | .error _ => false

/-- Strict green dominance of a parsed color. -/
def greenDomB (c : String) : Bool :=
  match hex_to_rgb c with
  | .ok t => decide (max t.1 t.2.2 < t.2.1)
  | .error _ => false

/-- Strict blue dominance of a parsed color. -/
def blueDomB (c : String) : Bool :=
  match hex_to_rgb c with
  | .ok t => decide (max t.1 t.2.1 < t.2.2)
  | .error _ => false

/-- The single wrap applied by `hue_to_rgb` to its position argument. -/
def wrap01 (t : ℚ) : ℚ :=
  let t1 := if t < 0 then t + 1 else t
  if 1 < t1 then t1 - 1 else t1

/-- Piecewise-linear weight of `hue_to_rgb`: a clamped min of its rising
and falling ramps. -/
def hueW (t : ℚ) : ℚ := max 0 (min 1 (min (6 * t) (4 - 6 * t)))

/-- Normalized red channel. -/
def rQ (rgb : ℤ × ℤ × ℤ) : ℚ := (rgb.1 : ℚ) / 255

/-- Normalized green channel. -/
def gQ (rgb : ℤ × ℤ × ℤ) : ℚ := (rgb.2.1 : ℚ) / 255

/-- Normalized blue channel. -/
def bQ (rgb : ℤ × ℤ × ℤ) : ℚ := (rgb.2.2 : ℚ) / 255

/-- `max_c` of `rgb_to_hsl`. -/
def maxC (rgb : ℤ × ℤ × ℤ) : ℚ := max (rQ rgb) (max (gQ rgb) (bQ rgb))

/-- `min_c` of `rgb_to_hsl`. -/
def minC (rgb : ℤ × ℤ × ℤ) : ℚ := min (rQ rgb) (min (gQ rgb) (bQ rgb))

/-- Exact (pre-rounding) lightness of `rgb_to_hsl`. -/
def lQ (rgb : ℤ × ℤ × ℤ) : ℚ := (maxC rgb + minC rgb) / 2

/-- `d = max_c - min_c` of `rgb_to_hsl`. -/
def dQ (rgb : ℤ × ℤ × ℤ) : ℚ := maxC rgb - minC rgb

/-- Exact (pre-rounding) saturation of `rgb_to_hsl` (non-gray branch). -/
def sQ (rgb : ℤ × ℤ × ℤ) : ℚ :=
  if 1/2 < lQ rgb then dQ rgb / (2 - maxC rgb - minC rgb)
  else dQ rgb / (maxC rgb + minC rgb)

/-- Exact (pre-rounding) hue of `rgb_to_hsl` as a turn fraction
(the source's `h` after the final `/= 6`). -/
def h0Q (rgb : ℤ × ℤ × ℤ) : ℚ :=
  (if maxC rgb = rQ rgb then
      (gQ rgb - bQ rgb) / dQ rgb + (if gQ rgb < bQ rgb then 6 else 0)
    else if maxC rgb = gQ rgb then (bQ rgb - rQ rgb) / dQ rgb + 2
    else (rQ rgb - gQ rgb) / dQ rgb + 4) / 6

/-! ## Theorems -/

theorem rhe_abs_le (x : ℚ) : |(rhe x : ℚ) - x| ≤ 1/2 := by
  unfold rhe
  have h0 : (0:ℚ) ≤ x - ⌊x⌋ := by
    have := Int.floor_le x; linarith
  have h1 : x - ⌊x⌋ < 1 := by
    have := Int.lt_floor_add_one x; linarith
  split
  · rw [abs_sub_comm, abs_of_nonneg (by linarith)]; linarith
  · rename_i hlt
    push_neg at hlt
    split
    · rw [abs_of_nonneg (by push_cast; linarith)]; push_cast; linarith
    · rename_i hgt
      push_neg at hgt
      split
      · rw [abs_sub_comm, abs_of_nonneg (by linarith)]; linarith
      · rw [abs_of_nonneg (by push_cast; linarith)]; push_cast; linarith

theorem round1_abs_le (x : ℚ) : |round1 x - x| ≤ 1/20 := by
  unfold round1
  have h := rhe_abs_le (10 * x)
  have : |(rhe (10*x) : ℚ)/10 - x| = |(rhe (10*x) : ℚ) - 10*x| / 10 := by
    rw [← abs_of_nonneg (show (0:ℚ) ≤ 10 by norm_num), ← abs_div]
    congr 1; field_simp
  rw [this]
  linarith [h]

theorem rhe_int (n : ℤ) : rhe (n : ℚ) = n := by
  unfold rhe
  simp

/-- If a rational is within `1/2` (strictly) of an integer, banker's
rounding recovers that integer exactly. -/
theorem rhe_eq_of_close (x : ℚ) (c : ℤ) (h : |x - c| < 1/2) : rhe x = c := by
  rcases abs_lt.mp h with ⟨h1, h2⟩
  have hf : ⌊x⌋ = c ∨ ⌊x⌋ = c - 1 := by
    have hfl : (⌊x⌋ : ℚ) ≤ x := Int.floor_le x
    have hfu : x < (⌊x⌋ : ℚ) + 1 := Int.lt_floor_add_one x
    have hlow : ((c : ℤ) : ℚ) - 2 < ⌊x⌋ := by linarith
    have hhigh : ((⌊x⌋ : ℤ) : ℚ) < c + 1 := by linarith
    have hlow' : c - 2 < ⌊x⌋ := by exact_mod_cast hlow
    have hhigh' : ⌊x⌋ < c + 1 := by exact_mod_cast hhigh
    omega
  unfold rhe
  rcases hf with hf | hf
  · rw [hf]
    have hif : x - (c:ℚ) < 1/2 := by linarith
    rw [if_pos hif]
  · rw [hf]
    have hr : ¬ (x - (((c - 1 : ℤ)):ℚ) < 1/2) := by push_neg; push_cast; linarith
    rw [if_neg hr]
    have hr2 : 1/2 < x - (((c - 1 : ℤ)):ℚ) := by push_cast; linarith
    rw [if_pos hr2]
    omega

/-- If a rational is within `3/2` (strictly) of an integer, banker's
rounding lands within `1` of that integer. -/
theorem rhe_close_of_close (x : ℚ) (c : ℤ) (h : |x - c| < 3/2) :
    |rhe x - c| ≤ 1 := by
  have h2 := rhe_abs_le x
  have hq : |(rhe x : ℚ) - c| < 2 := by
    calc |(rhe x : ℚ) - c| ≤ |(rhe x : ℚ) - x| + |x - c| := abs_sub_le _ x _
      _ < 2 := by linarith
  have hz : |((rhe x - c : ℤ) : ℚ)| < 2 := by push_cast; exact hq
  have : |rhe x - c| < 2 := by exact_mod_cast hz
  omega

/-! ## Claim C4 -/

/-- C4: `get_wcag_rating` maps a contrast ratio to exactly one tier using
inclusive lower bounds, highest tier winning: "AAA" iff ratio ≥ 7,
"AA" iff 4.5 ≤ ratio < 7, "AA Large" iff 3 ≤ ratio < 4.5, "Fail" iff
ratio < 3; in particular rating(7)="AAA", rating(6.99)="AA",
rating(4.5)="AA", rating(4.49)="AA Large", rating(3)="AA Large",
rating(2.99)="Fail". -/
theorem C4_get_wcag_rating_tiers (ratio : ℚ) :
    (get_wcag_rating ratio = "AAA" ↔ 7 ≤ ratio) ∧
    (get_wcag_rating ratio = "AA" ↔ 4.5 ≤ ratio ∧ ratio < 7) ∧
    (get_wcag_rating ratio = "AA Large" ↔ 3 ≤ ratio ∧ ratio < 4.5) ∧
    (get_wcag_rating ratio = "Fail" ↔ ratio < 3) ∧
    get_wcag_rating 7 = "AAA" ∧ get_wcag_rating 6.99 = "AA" ∧
    get_wcag_rating 4.5 = "AA" ∧ get_wcag_rating 4.49 = "AA Large" ∧
    get_wcag_rating 3 = "AA Large" ∧ get_wcag_rating 2.99 = "Fail" := by
  refine ⟨?_, ?_, ?_, ?_, ?_, ?_, ?_, ?_, ?_, ?_⟩ <;>
      rw [get_wcag_rating] <;>
      rw [WCAGThresholds.AAA, WCAGThresholds.AA, WCAGThresholds.AA_LARGE] <;>
      split_ifs with h1 h2 h3 <;>
      simp_all <;>
    first
      | linarith
      | (intro h; linarith)

/-! ## Claim C3 -/

/-- C3 (refuting the claim as stated, supporting the spec's intent):
`hex_to_rgb` does not raise on every input containing a non-hexadecimal
character.  `"-1-2-3"` has stripped length 6 and contains `'-'`, which is
not a hex digit, yet the function returns `(-1, -2, -3)` — channels
outside `[0, 255]` — because CPython's `int(s, 16)` accepts signs inside
each 2-character slice.  This contradicts the function's own docstring
("Returns ... values (0-255)", "Raises ValueError: If the hex color is
invalid"). -/
theorem C3_hex_to_rgb_nonhex_accepted :
    hex_to_rgb "-1-2-3" = .ok (-1, -2, -3) ∧
    isHexDigitChar '-' = false ∧ '-' ∈ "-1-2-3".data ∧ (-1 : ℤ) < 0 := by
  refine ⟨by rfl, by rfl, by decide, by norm_num⟩

theorem mem_insertKeyDesc {α : Type} (key : α → ℚ) (b : α) (l : List α) (a : α) :
    a ∈ insertKeyDesc key b l ↔ a = b ∨ a ∈ l := by
  induction l with
  | nil => simp [insertKeyDesc]
  | cons x xs ih =>
    rw [insertKeyDesc]
    split
    · simp
    · simp only [List.mem_cons, ih]
      tauto

theorem mem_sortKeyDesc {α : Type} (key : α → ℚ) (l : List α) (a : α) :
    a ∈ sortKeyDesc key l ↔ a ∈ l := by
  induction l with
  | nil => simp [sortKeyDesc]
  | cons x xs ih => rw [sortKeyDesc, mem_insertKeyDesc]; simp [ih]

theorem countOccStep_key_mem {α : Type} [DecidableEq α]
    (acc : List (α × ℕ)) (x : α) (p : α × ℕ) (hp : p ∈ countOccStep acc x) :
    (∃ q ∈ acc, p.1 = q.1) ∨ p.1 = x := by
  unfold countOccStep at hp
  split at hp
  · rcases List.mem_map.mp hp with ⟨q, hq, hfq⟩
    left
    refine ⟨q, hq, ?_⟩
    by_cases h : q.1 = x
    · rw [if_pos h] at hfq; rw [← hfq]
    · rw [if_neg h] at hfq; rw [← hfq]
  · rcases List.mem_append.mp hp with h | h
    · exact Or.inl ⟨p, h, rfl⟩
    · simp at h; right; rw [h]

theorem countOcc_key_mem {α : Type} [DecidableEq α] (l : List α) (p : α × ℕ)
    (hp : p ∈ countOcc l) : p.1 ∈ l := by
  suffices h : ∀ (acc : List (α × ℕ)) (p : α × ℕ),
      p ∈ l.foldl countOccStep acc → (∃ q ∈ acc, p.1 = q.1) ∨ p.1 ∈ l by
    rcases h [] p hp with ⟨q, hq, _⟩ | h
    · simp at hq
    · exact h
  clear hp p
  induction l with
  | nil => intro acc p hp; exact Or.inl ⟨p, hp, rfl⟩
  | cons x xs ih =>
    intro acc p hp
    rw [List.foldl_cons] at hp
    rcases ih (countOccStep acc x) p hp with ⟨q, hq, he⟩ | h
    · rcases countOccStep_key_mem acc x q hq with ⟨q2, hq2, he2⟩ | he2
      · exact Or.inl ⟨q2, hq2, he.trans he2⟩
      · right; rw [he, he2]; exact List.mem_cons_self x xs
    · right; exact List.mem_cons_of_mem x h

/-- Shape of every match produced by the `HEX_PATTERN` scanner. -/
theorem findallHexLooseGo_shape (fuel : ℕ) :
    ∀ (cs : List Char), ∀ m ∈ findallHexLooseGo fuel cs,
      ∃ ds, m = '#' :: ds ∧ 3 ≤ ds.length ∧ ds.length ≤ 6 ∧
        ∀ c ∈ ds, isHexDigitChar c = true := by
  induction fuel with
  | zero => intro cs m hm; simp [findallHexLooseGo] at hm
  | succ fuel ih =>
    intro cs m hm
    match cs with
    | [] => simp [findallHexLooseGo] at hm
    | c :: rest =>
      rw [findallHexLooseGo] at hm
      by_cases hc : c = '#'
      · rw [if_pos hc] at hm
        by_cases hcond : 3 ≤ (rest.takeWhile isHexDigitChar).length ∧
            (rest.takeWhile isHexDigitChar).length ≤ 6 ∧
            boundaryOk (rest.drop (rest.takeWhile isHexDigitChar).length) = true
        · rw [if_pos hcond] at hm
          rcases List.mem_cons.mp hm with hm | hm
          · exact ⟨rest.takeWhile isHexDigitChar, hm, hcond.1, hcond.2.1,
              fun a ha => List.mem_takeWhile_imp ha⟩
          · exact ih _ m hm
        · rw [if_neg hcond] at hm
          exact ih _ m hm
      · rw [if_neg hc] at hm
        exact ih _ m hm

theorem findallHexLoose_shape (cs : List Char) :
    ∀ m ∈ findallHexLoose cs,
      ∃ ds, m = '#' :: ds ∧ 3 ≤ ds.length ∧ ds.length ≤ 6 ∧
        ∀ c ∈ ds, isHexDigitChar c = true :=
  findallHexLooseGo_shape cs.length cs

theorem extract_hex_keys_shape (content : String)
    (res : List (String × ℚ)) (h : extract_hex_colors_from_svg content = .ok res) :
    ∀ p ∈ res, looseHexShape p.1 := by
  intro p hp
  unfold extract_hex_colors_from_svg at h
  split at h
  · exact absurd h (by simp)
  · dsimp only at h
    split at h
    · exact absurd h (by simp)
    · split at h
      · rw [Except.ok.injEq] at h
        subst h
        simp at hp
      · rw [Except.ok.injEq] at h
        subst h
        rcases List.mem_map.mp hp with ⟨q, hq, rfl⟩
        have hk := countOcc_key_mem _ q hq
        rcases List.mem_map.mp hk with ⟨m, hm, hqm⟩
        rcases findallHexLoose_shape _ m hm with ⟨ds, hds, h3, h6, hall⟩
        exact ⟨ds, by rw [← hqm]; exact congrArg String.data (congrArg String.mk hds), h3, h6, hall⟩

theorem elemColorMatches_shape (attrib : List (String × String)) :
    ∀ s ∈ elemColorMatches attrib, looseHexShape s := by
  intro s hs
  unfold elemColorMatches at hs
  rcases List.mem_flatMap.mp hs with ⟨attr, _, hmem⟩
  split at hmem
  · split at hmem
    · rcases List.mem_map.mp hmem with ⟨m, hm, rfl⟩
      rcases findallHexLoose_shape _ m hm with ⟨ds, rfl, h3, h6, hall⟩
      exact ⟨ds, rfl, h3, h6, hall⟩
    · simp at hmem
  · simp at hmem

/-- C9 (amended): every key returned by the SVG extraction, through the
XML-attribute path or the regex path, is `#` followed by 3 to 6 hex
digits (the pattern is `#[0-9a-fA-F]{3,6}\b`, not exactly-3-or-6). -/
theorem C9_svg_extraction_keys (content : String) (xml : XmlParseOutcome)
    (maxColors : ℕ) (res : List (String × ℚ))
    (h : extract_hex_colors_from_svg content = .ok res ∨
      extract_colors_from_svg_safe content xml maxColors = .ok res) :
    ∀ p ∈ res, looseHexShape p.1 := by
  rcases h with h | h
  · exact extract_hex_keys_shape content res h
  · unfold extract_colors_from_svg_safe at h
    split at h
    · exact absurd h (by simp)
    · split at h
      · exact absurd h (by simp)
      · exact extract_hex_keys_shape content res h
      · dsimp only at h
        split at h
        · exact extract_hex_keys_shape content res h
        · split at h
          · exact extract_hex_keys_shape content res h
          · rw [Except.ok.injEq] at h
            subst h
            intro p hp
            rcases List.mem_map.mp hp with ⟨q, hq, rfl⟩
            have hq2 := List.mem_of_mem_take hq
            rw [mem_sortKeyDesc] at hq2
            have hk := countOcc_key_mem _ q hq2
            rcases List.mem_flatMap.mp hk with ⟨attrib, _, hmem⟩
            exact elemColorMatches_shape attrib _ hmem

/-- C9 (counterexample to the claim as stated): the SVG content
`<svg fill="#abcd"/>` yields the key `"#abcd"` — `#` followed by 4 hex
digits, not 3 or 6 — which fails hex validation and is unparseable by
`hex_to_rgb`. -/
theorem C9_counterexample_four_digit_key :
    extract_hex_colors_from_svg "<svg fill=\"#abcd\"/>" = .ok [("#abcd", 100)] ∧
    validate_hex_color "#abcd" = false ∧
    hex_to_rgb "#abcd" = .error (.valueError "Invalid HEX color: #abcd") := by
  refine ⟨?_, by rfl, by rfl⟩
  rw [show extract_hex_colors_from_svg "<svg fill=\"#abcd\"/>" =
      .ok [("#abcd", ((1:ℕ):ℚ)/((1:ℕ):ℚ)*100)] from rfl]
  norm_num

/-- Witness for C9 at a concrete input. -/
theorem C9_svg_extraction_keys_witness : looseHexShape "#FF0000" :=
  C9_svg_extraction_keys "<svg fill=\"#FF0000\"/>" .parseError 1000
    [("#FF0000", ((1:ℕ):ℚ)/((1:ℕ):ℚ)*100)] (Or.inl rfl)
    ("#FF0000", ((1:ℕ):ℚ)/((1:ℕ):ℚ)*100) (List.mem_singleton_self _)

/-- C2 (amended): on an XML `ParseError` the safe SVG extraction raises a
`ValidationError` with no regex fallback; the automatic regex fallback
happens only for a zero-color XML parse or a non-parse exception. -/
theorem C2_svg_safe_fallback_policy (content : String) (maxColors : ℕ)
    (h : pyUtf8Len content ≤ ImageProcessing.MAX_SVG_SIZE) :
    extract_colors_from_svg_safe content .parseError maxColors =
      .error (.validationError "Invalid or malicious SVG file. XML parsing failed") ∧
    extract_colors_from_svg_safe content .otherError maxColors =
      extract_hex_colors_from_svg content ∧
    (∀ elems, countOcc (elems.flatMap elemColorMatches) = [] →
      extract_colors_from_svg_safe content (.parsed elems) maxColors =
        extract_hex_colors_from_svg content) := by
  have hno : ¬ (ImageProcessing.MAX_SVG_SIZE < pyUtf8Len content) := not_lt.mpr h
  refine ⟨?_, ?_, ?_⟩
  · unfold extract_colors_from_svg_safe
    rw [if_neg hno]
  · unfold extract_colors_from_svg_safe
    rw [if_neg hno]
  · intro elems hz
    unfold extract_colors_from_svg_safe
    rw [if_neg hno]
    dsimp only
    rw [hz]
    norm_num

/-- C2 (counterexample to the claim as stated): for content whose regex
scan succeeds, an XML parse failure still surfaces a `ValidationError`
directly — the regex fallback is not attempted. -/
theorem C2_counterexample_no_fallback_on_parse_error :
    extract_colors_from_svg_safe "<svg fill=\"#FF0000\"/>" .parseError 1000 =
      .error (.validationError "Invalid or malicious SVG file. XML parsing failed") ∧
    extract_hex_colors_from_svg "<svg fill=\"#FF0000\"/>" =
      .ok [("#FF0000", 100)] := by
  constructor
  · rfl
  · rw [show extract_hex_colors_from_svg "<svg fill=\"#FF0000\"/>" =
        .ok [("#FF0000", ((1:ℕ):ℚ)/((1:ℕ):ℚ)*100)] from rfl]
    norm_num

/-- Witness for C2 at a concrete input. -/
theorem C2_svg_safe_fallback_policy_witness :
    extract_colors_from_svg_safe "<svg/>" .parseError 1000 =
      .error (.validationError "Invalid or malicious SVG file. XML parsing failed") ∧
    extract_colors_from_svg_safe "<svg/>" .otherError 1000 =
      extract_hex_colors_from_svg "<svg/>" ∧
    extract_colors_from_svg_safe "<svg/>" (.parsed [[("width", "10")]]) 1000 =
      extract_hex_colors_from_svg "<svg/>" :=
  ⟨(C2_svg_safe_fallback_policy "<svg/>" 1000 (by decide)).1,
   (C2_svg_safe_fallback_policy "<svg/>" 1000 (by decide)).2.1,
   (C2_svg_safe_fallback_policy "<svg/>" 1000 (by decide)).2.2
     [[("width", "10")]] (by rfl)⟩

/-- C7 (refuting the claim as stated, supporting the docstring's intent):
with `generate_pdfs` set, a successfully processed file appends no entry
to the results list (the value returned by `process_file` is discarded),
so the batch result does not have one entry per input file; with the
default `generate_pdfs=False` the 3-file scenario behaves as claimed:
one entry per file in input order, the failing file carrying an error
and zero colors, and processing continuing past the failure. -/
theorem C7_process_batch_pdfs_drops_success :
    process_batch (fun _ => .ok ⟨[("#FF0000", 100)], [], []⟩) ["a.svg"] true
      = [] ∧
    process_batch
        (fun f => if f = "f2.svg" then .error (.validationError "boom")
          else .ok ⟨[("#FF0000", 100)], [], []⟩)
        ["f1.svg", "f2.svg", "f3.svg"] false =
      [⟨"f1.svg", none, 1, [("#FF0000", 100)], [], []⟩,
       ⟨"f2.svg", some "boom", 0, [], [], []⟩,
       ⟨"f3.svg", none, 1, [("#FF0000", 100)], [], []⟩] :=
  ⟨rfl, rfl⟩

/-- A hex digit is none of the special characters the int-parser treats
specially. -/
theorem hex_char_facts (c : Char) (h : isHexDigitChar c = true) :
    isPySpace c = false ∧ c ≠ '+' ∧ c ≠ '-' ∧ c ≠ '_' ∧ c ≠ '#' ∧
      c ≠ 'x' ∧ c ≠ 'X' := by
  refine ⟨?_, ?_, ?_, ?_, ?_, ?_, ?_⟩
  · by_contra hsp
    rw [Bool.not_eq_false] at hsp
    simp only [isPySpace, Bool.or_eq_true, decide_eq_true_eq] at hsp
    rcases hsp with ((((rfl | rfl) | rfl) | rfl) | rfl) | rfl <;>
      revert h <;> decide
  all_goals (intro heq; subst heq; revert h; decide)

theorem hexVal_le (c : Char) (h : isHexDigitChar c = true) : hexVal c ≤ 15 := by
  simp only [isHexDigitChar, Bool.or_eq_true, Bool.and_eq_true,
    decide_eq_true_eq] at h
  unfold hexVal
  split_ifs with h1 h2 <;>
    simp only [Bool.and_eq_true, decide_eq_true_eq] at h1 <;>
    omega

/-- `int([a, b], 16)` on two hex digits. -/
theorem pyIntHex_pair (a b : Char) (ha : isHexDigitChar a = true)
    (hb : isHexDigitChar b = true) :
    pyIntHex [a, b] = some ((hexVal a * 16 + hexVal b : ℕ) : ℤ) := by
  obtain ⟨hsa, hpa, hma, _, _, _, _⟩ := hex_char_facts a ha
  obtain ⟨hsb, _, _, hub, _, hxb, hXb⟩ := hex_char_facts b hb
  have hstrip : stripPySpaces [a, b] = [a, b] := by
    simp [stripPySpaces, List.dropWhile_cons, hsa, hsb]
  rw [pyIntHex, hstrip]
  dsimp only
  rw [if_neg hpa, if_neg hma]
  have hbody : pyIntHexBody [a, b] = some (hexVal a * 16 + hexVal b) := by
    rw [pyIntHexBody]
    rw [if_neg (by rintro ⟨rfl, h | h⟩ <;> [exact hxb h; exact hXb h])]
    rw [parseHexBody, if_pos ha, parseHexDigitsCore, if_neg hub, if_pos hb,
      parseHexDigitsCore]
  rw [hbody]
  rfl

theorem pair_val_bounds (a b : Char) (ha : isHexDigitChar a = true)
    (hb : isHexDigitChar b = true) :
    (0 : ℤ) ≤ ((hexVal a * 16 + hexVal b : ℕ) : ℤ) ∧
      ((hexVal a * 16 + hexVal b : ℕ) : ℤ) ≤ 255 := by
  constructor
  · positivity
  · have h1 := hexVal_le a ha
    have h2 := hexVal_le b hb
    have h3 : hexVal a * 16 + hexVal b ≤ 255 := by omega
    exact_mod_cast h3

/-- Parsing succeeds on every string accepted by `validate_hex_color`,
with all channels in `[0, 255]`. -/
theorem hex_to_rgb_of_valid (s : String) (h : validate_hex_color s = true) :
    ∃ t : ℤ × ℤ × ℤ, hex_to_rgb s = .ok t ∧ 0 ≤ t.1 ∧ t.1 ≤ 255 ∧
      0 ≤ t.2.1 ∧ t.2.1 ≤ 255 ∧ 0 ≤ t.2.2 ∧ t.2.2 ≤ 255 := by
  unfold validate_hex_color at h
  rcases hdata : s.data with _ | ⟨c0, rest⟩ <;> rw [hdata] at h
  · simp at h
  · simp only [Bool.and_eq_true, Bool.or_eq_true, decide_eq_true_eq,
      List.all_eq_true] at h
    obtain ⟨⟨hc0, hlen⟩, hall⟩ := h
    subst hc0
    have hdrop : ('#' :: rest).dropWhile (fun x => decide (x = '#')) = rest := by
      cases rest with
      | nil => rfl
      | cons c1 r =>
        have h1 : c1 ≠ '#' := (hex_char_facts c1 (hall c1 (by simp))).2.2.2.2.1
        simp [List.dropWhile_cons, h1]
    unfold hex_to_rgb
    rw [hdata, hdrop]
    rcases hlen with h3 | h6
    · obtain ⟨a, b, c, rfl⟩ := List.length_eq_three.mp h3
      have ha := hall a (by simp)
      have hb := hall b (by simp)
      have hc := hall c (by simp)
      dsimp only
      rw [if_pos (show ([a, b, c] : List Char).length = 3 from rfl)]
      rw [show ([a, b, c] : List Char).flatMap (fun c => [c, c]) =
        [a, a, b, b, c, c] from rfl]
      rw [if_pos (show ([a, a, b, b, c, c] : List Char).length = 6 from rfl)]
      rw [show ([a, a, b, b, c, c] : List Char).take 2 = [a, a] from rfl,
        show (([a, a, b, b, c, c] : List Char).drop 2).take 2 = [b, b] from rfl,
        show ([a, a, b, b, c, c] : List Char).drop 4 = [c, c] from rfl]
      rw [pyIntHex_pair a a ha ha, pyIntHex_pair b b hb hb,
        pyIntHex_pair c c hc hc]
      exact ⟨_, rfl, (pair_val_bounds a a ha ha).1, (pair_val_bounds a a ha ha).2,
        (pair_val_bounds b b hb hb).1, (pair_val_bounds b b hb hb).2,
        (pair_val_bounds c c hc hc).1, (pair_val_bounds c c hc hc).2⟩
    · rcases rest with _ | ⟨a, rest⟩; · simp at h6
      rcases rest with _ | ⟨b, rest⟩; · simp at h6
      rcases rest with _ | ⟨c, rest⟩; · simp at h6
      rcases rest with _ | ⟨d, rest⟩; · simp at h6
      rcases rest with _ | ⟨e, rest⟩; · simp at h6
      rcases rest with _ | ⟨f, rest⟩; · simp at h6
      rcases rest with _ | ⟨g, rest⟩
      · have ha := hall a (by simp)
        have hb := hall b (by simp)
        have hc := hall c (by simp)
        have hd := hall d (by simp)
        have he := hall e (by simp)
        have hf := hall f (by simp)
        dsimp only
        rw [if_neg (show ¬ (([a, b, c, d, e, f] : List Char).length = 3) by
          norm_num)]
        rw [if_pos (show ([a, b, c, d, e, f] : List Char).length = 6 from rfl)]
        rw [show ([a, b, c, d, e, f] : List Char).take 2 = [a, b] from rfl,
          show (([a, b, c, d, e, f] : List Char).drop 2).take 2 = [c, d] from
            rfl,
          show ([a, b, c, d, e, f] : List Char).drop 4 = [e, f] from rfl]
        rw [pyIntHex_pair a b ha hb, pyIntHex_pair c d hc hd,
          pyIntHex_pair e f he hf]
        exact ⟨_, rfl, (pair_val_bounds a b ha hb).1,
          (pair_val_bounds a b ha hb).2, (pair_val_bounds c d hc hd).1,
          (pair_val_bounds c d hc hd).2, (pair_val_bounds e f he hf).1,
          (pair_val_bounds e f he hf).2⟩
      · simp [List.length_cons] at h6

theorem get_contrast_ratio_of_valid (gamma : ℚ → ℚ) (c1 c2 : String)
    (h1 : validate_hex_color c1 = true) (h2 : validate_hex_color c2 = true) :
    ∃ q, get_contrast_ratio gamma c1 c2 = .ok q := by
  obtain ⟨t1, ht1, _⟩ := hex_to_rgb_of_valid c1 h1
  obtain ⟨t2, ht2, _⟩ := hex_to_rgb_of_valid c2 h2
  refine ⟨(max (calculate_luminance gamma t1) (calculate_luminance gamma t2)
      + 0.05) /
    (min (calculate_luminance gamma t1) (calculate_luminance gamma t2)
      + 0.05), ?_⟩
  unfold get_contrast_ratio
  rw [ht1, ht2]
  rfl

theorem rating_priority_get_unknown (r : String)
    (h : r ≠ "Fail" ∧ r ≠ "AA Large" ∧ r ≠ "AA" ∧ r ≠ "AAA") :
    rating_priority_get r 1 = 1 := by
  unfold rating_priority_get
  rw [if_neg h.1, if_neg h.2.1, if_neg h.2.2.1, if_neg h.2.2.2]

/-- C10: an unknown `min_rating` string is silently given priority 1, so
`check_dark_mode_compatibility` neither raises because of it nor behaves
differently from `min_rating = "AA Large"`. -/
theorem C10_unknown_min_rating_as_aa_large (gamma : ℚ → ℚ)
    (text lbg dbg minr : String)
    (h : minr ≠ "Fail" ∧ minr ≠ "AA Large" ∧ minr ≠ "AA" ∧ minr ≠ "AAA") :
    check_dark_mode_compatibility gamma text lbg dbg minr =
      check_dark_mode_compatibility gamma text lbg dbg "AA Large" ∧
    (validate_hex_color text = true → validate_hex_color lbg = true →
      validate_hex_color dbg = true →
      ∃ res, check_dark_mode_compatibility gamma text lbg dbg minr =
        .ok res) := by
  have hcheck : ∀ l d, _check_rating_compatibility l d minr =
      _check_rating_compatibility l d "AA Large" := by
    intro l d
    unfold _check_rating_compatibility
    rw [rating_priority_get_unknown minr h]
    rfl
  constructor
  · simp only [check_dark_mode_compatibility, hcheck]
  · intro hv1 hv2 hv3
    unfold check_dark_mode_compatibility
    rw [if_neg (by simp [hv1]), if_neg (by simp [hv2]), if_neg (by simp [hv3])]
    obtain ⟨q1, hq1⟩ := get_contrast_ratio_of_valid gamma text lbg hv1 hv2
    obtain ⟨q2, hq2⟩ := get_contrast_ratio_of_valid gamma text dbg hv1 hv3
    refine ⟨DarkModeResult.mk lbg dbg text q1 q2 (get_wcag_rating q1)
      (get_wcag_rating q2) (_check_rating_compatibility (get_wcag_rating q1)
        (get_wcag_rating q2) minr), ?_⟩
    rw [hq1, hq2]
    rfl

theorem get_wcag_rating_total (q : ℚ) :
    get_wcag_rating q = "AAA" ∨ get_wcag_rating q = "AA" ∨
      get_wcag_rating q = "AA Large" ∨ get_wcag_rating q = "Fail" := by
  unfold get_wcag_rating
  split_ifs <;> simp

/-- C8: `check_dark_mode_compatibility` succeeds on valid colors and its
verdict is exactly the strict ordinal comparison of both ratings against
`min_rating` under Fail < "AA Large" < "AA" < "AAA"; in particular an
"AA Large" rating does not satisfy `min_rating = "AA"`. -/
theorem C8_dark_mode_strict_ordinal (gamma : ℚ → ℚ)
    (text lbg dbg minr : String)
    (hv1 : validate_hex_color text = true)
    (hv2 : validate_hex_color lbg = true)
    (hv3 : validate_hex_color dbg = true)
    (hm : minr = "Fail" ∨ minr = "AA Large" ∨ minr = "AA" ∨ minr = "AAA") :
    ∃ res : DarkModeResult,
      check_dark_mode_compatibility gamma text lbg dbg minr = .ok res ∧
      res.light_rating = get_wcag_rating res.light_contrast ∧
      res.dark_rating = get_wcag_rating res.dark_contrast ∧
      (res.is_compatible = true ↔
        ratingTier minr ≤ ratingTier res.light_rating ∧
        ratingTier minr ≤ ratingTier res.dark_rating) := by
  unfold check_dark_mode_compatibility
  rw [if_neg (by simp [hv1]), if_neg (by simp [hv2]), if_neg (by simp [hv3])]
  obtain ⟨q1, hq1⟩ := get_contrast_ratio_of_valid gamma text lbg hv1 hv2
  obtain ⟨q2, hq2⟩ := get_contrast_ratio_of_valid gamma text dbg hv1 hv3
  refine ⟨DarkModeResult.mk lbg dbg text q1 q2 (get_wcag_rating q1)
    (get_wcag_rating q2) (_check_rating_compatibility (get_wcag_rating q1)
      (get_wcag_rating q2) minr), ?_, rfl, rfl, ?_⟩
  · rw [hq1, hq2]
    rfl
  · show _check_rating_compatibility (get_wcag_rating q1) (get_wcag_rating q2)
        minr = true ↔ _
    rcases get_wcag_rating_total q1 with h1 | h1 | h1 | h1 <;>
      rcases get_wcag_rating_total q2 with h2 | h2 | h2 | h2 <;>
      rw [h1, h2] <;>
      rcases hm with rfl | rfl | rfl | rfl <;>
      dsimp only <;>
      decide

/-- Witness for C10 at a concrete unknown rating string. -/
theorem C10_unknown_min_rating_witness :
    check_dark_mode_compatibility (fun x => x) "#777777" "#FFFFFF" "#121212"
        "Platinum" =
      check_dark_mode_compatibility (fun x => x) "#777777" "#FFFFFF" "#121212"
        "AA Large" ∧
    ∃ res, check_dark_mode_compatibility (fun x => x) "#777777" "#FFFFFF"
      "#121212" "Platinum" = .ok res :=
  ⟨(C10_unknown_min_rating_as_aa_large (fun x => x) "#777777" "#FFFFFF"
      "#121212" "Platinum" (by decide)).1,
   (C10_unknown_min_rating_as_aa_large (fun x => x) "#777777" "#FFFFFF"
      "#121212" "Platinum" (by decide)).2 (by decide) (by decide) (by decide)⟩

/-- Witness for C8 at concrete colors and `min_rating = "AA"`. -/
theorem C8_dark_mode_strict_ordinal_witness :
    ∃ res : DarkModeResult,
      check_dark_mode_compatibility (fun x => x) "#777777" "#FFFFFF" "#121212"
          "AA" = .ok res ∧
      res.light_rating = get_wcag_rating res.light_contrast ∧
      res.dark_rating = get_wcag_rating res.dark_contrast ∧
      (res.is_compatible = true ↔
        ratingTier "AA" ≤ ratingTier res.light_rating ∧
        ratingTier "AA" ≤ ratingTier res.dark_rating) :=
  C8_dark_mode_strict_ordinal (fun x => x) "#777777" "#FFFFFF" "#121212" "AA"
    (by decide) (by decide) (by decide) (Or.inr (Or.inr (Or.inl rfl)))

/-- Strict dominance is mutually exclusive. -/
theorem dom_exclusive (c : String) :
    ¬(redDomB c = true ∧ greenDomB c = true) ∧
    ¬(redDomB c = true ∧ blueDomB c = true) ∧
    ¬(greenDomB c = true ∧ blueDomB c = true) := by
  unfold redDomB greenDomB blueDomB
  rcases hex_to_rgb c with t | e
  · simp
  · simp only [decide_eq_true_eq]
    refine ⟨?_, ?_, ?_⟩ <;> rintro ⟨h1, h2⟩ <;>
      simp only [max_lt_iff] at h1 h2 <;> omega

theorem insertKeyDesc_pairwise {α : Type} (key : α → ℚ) (a : α) (l : List α)
    (h : l.Pairwise (fun x y => key y ≤ key x)) :
    (insertKeyDesc key a l).Pairwise (fun x y => key y ≤ key x) := by
  induction l with
  | nil => simp [insertKeyDesc]
  | cons b bs ih =>
    rw [insertKeyDesc]
    rcases List.pairwise_cons.mp h with ⟨hb, hbs⟩
    split
    · rename_i hc
      refine List.pairwise_cons.mpr ⟨?_, h⟩
      intro x hx
      rcases List.mem_cons.mp hx with rfl | hx
      · exact hc
      · exact le_trans (hb x hx) hc
    · rename_i hc
      push_neg at hc
      refine List.pairwise_cons.mpr ⟨?_, ih hbs⟩
      intro x hx
      rcases (mem_insertKeyDesc key a bs x).mp hx with rfl | hx
      · exact le_of_lt hc
      · exact hb x hx

theorem sortKeyDesc_pairwise {α : Type} (key : α → ℚ) (l : List α) :
    (sortKeyDesc key l).Pairwise (fun x y => key y ≤ key x) := by
  induction l with
  | nil => simp [sortKeyDesc]
  | cons a l ih => exact insertKeyDesc_pairwise key a _ ih

theorem insertKeyDesc_filter_freq (a : String × ℚ) (l : List (String × ℚ))
    (q : ℚ) :
    (insertKeyDesc (·.2) a l).filter (fun p => decide (p.2 = q)) =
      if a.2 = q then a :: l.filter (fun p => decide (p.2 = q))
      else l.filter (fun p => decide (p.2 = q)) := by
  induction l with
  | nil =>
    rw [insertKeyDesc]
    by_cases ha : a.2 = q
    · rw [if_pos ha]; simp [List.filter, ha]
    · rw [if_neg ha]; simp [List.filter, ha]
  | cons b bs ih =>
    rw [insertKeyDesc]
    split
    · rename_i hc
      by_cases ha : a.2 = q
      · rw [if_pos ha]; simp [List.filter_cons, ha]
      · rw [if_neg ha]; simp [List.filter_cons, ha]
    · rename_i hc
      push_neg at hc
      by_cases ha : a.2 = q
      · rw [if_pos ha]
        have hbq : ¬ (b.2 = q) := by
          intro hbq; rw [hbq, ← ha] at hc; exact absurd rfl (ne_of_gt hc)
        rw [List.filter_cons_of_neg (by simpa using hbq),
          List.filter_cons_of_neg (by simpa using hbq), ih, if_pos ha]
      · rw [if_neg ha, List.filter_cons, List.filter_cons, ih, if_neg ha]

theorem sortKeyDesc_filter_freq (l : List (String × ℚ)) (q : ℚ) :
    (sortKeyDesc (·.2) l).filter (fun p => decide (p.2 = q)) =
      l.filter (fun p => decide (p.2 = q)) := by
  induction l with
  | nil => rfl
  | cons a l ih =>
    rw [sortKeyDesc, insertKeyDesc_filter_freq, List.filter_cons]
    by_cases ha : a.2 = q
    · rw [if_pos ha, ih, if_pos (by simpa using ha)]
    · rw [if_neg ha, ih, if_neg (by simpa using ha)]

theorem exceptBindOk {ε α β : Type} (a : α) (f : α → Except ε β) :
    (Except.ok a : Except ε α) >>= f = f a := rfl

theorem is_red_color_eq (t : ℤ × ℤ × ℤ) :
    is_red_color t = .ok (decide (max t.2.1 t.2.2 < t.1)) := rfl

theorem is_green_color_eq (t : ℤ × ℤ × ℤ) :
    is_green_color t = .ok (decide (max t.1 t.2.2 < t.2.1)) := rfl

theorem is_blue_color_eq (t : ℤ × ℤ × ℤ) :
    is_blue_color t = .ok (decide (max t.1 t.2.1 < t.2.2)) := rfl

theorem categorizeStep_eq (m : List (String × ℚ))
    (hok : ∀ p ∈ m, ∃ t, hex_to_rgb p.1 = .ok t) :
    categorizeStep m = .ok (m.filter (fun q => redDomB q.1),
      m.filter (fun q => greenDomB q.1),
      m.filter (fun q => blueDomB q.1)) := by
  induction m with
  | nil => rfl
  | cons p rest ih =>
    obtain ⟨c, f⟩ := p
    obtain ⟨t, ht⟩ := hok (c, f) (by simp)
    have ihr := ih (fun q hq => hok q (List.mem_cons_of_mem _ hq))
    simp only [categorizeStep, ht, exceptBindOk, is_red_color_eq,
      is_green_color_eq, is_blue_color_eq, ihr, List.filter_cons, redDomB,
      greenDomB, blueDomB]
    split_ifs <;>
      first
        | rfl
        | (exfalso
           simp only [decide_eq_true_eq, max_lt_iff] at *
           omega)

/-- C6: categorize_colors, on a frequency map of parseable colors,
puts each entry in at most one bucket (its strictly dominant channel),
drops entries with no strictly dominant channel, and returns each bucket
stable-sorted by frequency descending (pairwise order plus preservation
of the input order among entries of equal frequency). -/
theorem C6_categorize_colors_spec (m : List (String × ℚ))
    (hok : ∀ p ∈ m, ∃ t, hex_to_rgb p.1 = .ok t) :
    ∃ cats : Categories, categorize_colors m = .ok cats ∧
      (∀ p : String × ℚ, p ∈ cats.red ↔ p ∈ m ∧ redDomB p.1 = true) ∧
      (∀ p : String × ℚ, p ∈ cats.green ↔ p ∈ m ∧ greenDomB p.1 = true) ∧
      (∀ p : String × ℚ, p ∈ cats.blue ↔ p ∈ m ∧ blueDomB p.1 = true) ∧
      (∀ p ∈ m, redDomB p.1 = false → greenDomB p.1 = false →
        blueDomB p.1 = false →
        p ∉ cats.red ∧ p ∉ cats.green ∧ p ∉ cats.blue) ∧
      (∀ p : String × ℚ, ¬(p ∈ cats.red ∧ p ∈ cats.green) ∧
        ¬(p ∈ cats.red ∧ p ∈ cats.blue) ∧
        ¬(p ∈ cats.green ∧ p ∈ cats.blue)) ∧
      cats.red.Pairwise (fun a b => b.2 ≤ a.2) ∧
      cats.green.Pairwise (fun a b => b.2 ≤ a.2) ∧
      cats.blue.Pairwise (fun a b => b.2 ≤ a.2) ∧
      (∀ q : ℚ,
        cats.red.filter (fun p => decide (p.2 = q)) =
          m.filter (fun p => redDomB p.1 && decide (p.2 = q)) ∧
        cats.green.filter (fun p => decide (p.2 = q)) =
          m.filter (fun p => greenDomB p.1 && decide (p.2 = q)) ∧
        cats.blue.filter (fun p => decide (p.2 = q)) =
          m.filter (fun p => blueDomB p.1 && decide (p.2 = q))) := by
  have hmemr : ∀ p : String × ℚ,
      p ∈ sortKeyDesc (·.2) (m.filter (fun q => redDomB q.1)) ↔
        p ∈ m ∧ redDomB p.1 = true := by
    intro p
    rw [mem_sortKeyDesc, List.mem_filter]
  have hmemg : ∀ p : String × ℚ,
      p ∈ sortKeyDesc (·.2) (m.filter (fun q => greenDomB q.1)) ↔
        p ∈ m ∧ greenDomB p.1 = true := by
    intro p
    rw [mem_sortKeyDesc, List.mem_filter]
  have hmemb : ∀ p : String × ℚ,
      p ∈ sortKeyDesc (·.2) (m.filter (fun q => blueDomB q.1)) ↔
        p ∈ m ∧ blueDomB p.1 = true := by
    intro p
    rw [mem_sortKeyDesc, List.mem_filter]
  refine ⟨Categories.mk (sortKeyDesc (·.2) (m.filter (fun q => redDomB q.1)))
      (sortKeyDesc (·.2) (m.filter (fun q => greenDomB q.1)))
      (sortKeyDesc (·.2) (m.filter (fun q => blueDomB q.1))), ?_,
    hmemr, hmemg, hmemb, ?_, ?_,
    sortKeyDesc_pairwise _ _, sortKeyDesc_pairwise _ _,
    sortKeyDesc_pairwise _ _, ?_⟩
  · unfold categorize_colors
    rw [categorizeStep_eq m hok, exceptBindOk]
    rfl
  · intro p hp hr hg hb
    refine ⟨?_, ?_, ?_⟩ <;> intro hmem
    · rw [hmemr p] at hmem; rw [hr] at hmem; exact absurd hmem.2 (by simp)
    · rw [hmemg p] at hmem; rw [hg] at hmem; exact absurd hmem.2 (by simp)
    · rw [hmemb p] at hmem; rw [hb] at hmem; exact absurd hmem.2 (by simp)
  · intro p
    obtain ⟨hrg, hrb, hgb⟩ := dom_exclusive p.1
    refine ⟨?_, ?_, ?_⟩ <;> rintro ⟨h1, h2⟩
    · exact hrg ⟨((hmemr p).mp h1).2, ((hmemg p).mp h2).2⟩
    · exact hrb ⟨((hmemr p).mp h1).2, ((hmemb p).mp h2).2⟩
    · exact hgb ⟨((hmemg p).mp h1).2, ((hmemb p).mp h2).2⟩
  · intro q
    refine ⟨?_, ?_, ?_⟩ <;>
      rw [sortKeyDesc_filter_freq, List.filter_filter] <;>
      exact List.filter_congr (fun a _ => Bool.and_comm _ _)

/-- Witness for C6 at the spec's concrete frequency map plus a gray. -/
theorem C6_categorize_colors_witness :
    ∃ cats : Categories,
      categorize_colors
        [("#FF0000", 50), ("#00FF00", 30), ("#0000FF", 20), ("#777777", 10)] =
        .ok cats ∧
      (∀ p : String × ℚ, p ∈ cats.red ↔
        p ∈ [(("#FF0000" : String), (50 : ℚ)), ("#00FF00", 30), ("#0000FF", 20),
          ("#777777", 10)] ∧ redDomB p.1 = true) ∧
      (∀ p : String × ℚ, p ∈ cats.green ↔
        p ∈ [(("#FF0000" : String), (50 : ℚ)), ("#00FF00", 30), ("#0000FF", 20),
          ("#777777", 10)] ∧ greenDomB p.1 = true) ∧
      (∀ p : String × ℚ, p ∈ cats.blue ↔
        p ∈ [(("#FF0000" : String), (50 : ℚ)), ("#00FF00", 30), ("#0000FF", 20),
          ("#777777", 10)] ∧ blueDomB p.1 = true) ∧
      (∀ p ∈ [(("#FF0000" : String), (50 : ℚ)), ("#00FF00", 30),
          ("#0000FF", 20), ("#777777", 10)],
        redDomB p.1 = false → greenDomB p.1 = false → blueDomB p.1 = false →
        p ∉ cats.red ∧ p ∉ cats.green ∧ p ∉ cats.blue) ∧
      (∀ p : String × ℚ, ¬(p ∈ cats.red ∧ p ∈ cats.green) ∧
        ¬(p ∈ cats.red ∧ p ∈ cats.blue) ∧
        ¬(p ∈ cats.green ∧ p ∈ cats.blue)) ∧
      cats.red.Pairwise (fun a b => b.2 ≤ a.2) ∧
      cats.green.Pairwise (fun a b => b.2 ≤ a.2) ∧
      cats.blue.Pairwise (fun a b => b.2 ≤ a.2) ∧
      (∀ q : ℚ,
        cats.red.filter (fun p => decide (p.2 = q)) =
          List.filter (fun p => redDomB p.1 && decide (p.2 = q))
            [("#FF0000", 50), ("#00FF00", 30), ("#0000FF", 20),
              ("#777777", 10)] ∧
        cats.green.filter (fun p => decide (p.2 = q)) =
          List.filter (fun p => greenDomB p.1 && decide (p.2 = q))
            [("#FF0000", 50), ("#00FF00", 30), ("#0000FF", 20),
              ("#777777", 10)] ∧
        cats.blue.filter (fun p => decide (p.2 = q)) =
          List.filter (fun p => blueDomB p.1 && decide (p.2 = q))
            [("#FF0000", 50), ("#00FF00", 30), ("#0000FF", 20),
              ("#777777", 10)]) :=
  C6_categorize_colors_spec
    [("#FF0000", 50), ("#00FF00", 30), ("#0000FF", 20), ("#777777", 10)]
    (by
      intro p hp
      simp only [List.mem_cons, List.not_mem_nil, or_false] at hp
      rcases hp with rfl | rfl | rfl | rfl
      exacts [⟨(255, 0, 0), rfl⟩, ⟨(0, 255, 0), rfl⟩, ⟨(0, 0, 255), rfl⟩,
        ⟨(119, 119, 119), rfl⟩])

theorem wrap01_of_neg (x : ℚ) (h : x < 0) (h2 : x + 1 ≤ 1) :
    wrap01 x = x + 1 := by
  unfold wrap01
  dsimp only
  rw [if_pos h, if_neg (not_lt.mpr h2)]

theorem wrap01_of_mem (x : ℚ) (h0 : 0 ≤ x) (h1 : x ≤ 1) : wrap01 x = x := by
  unfold wrap01
  dsimp only
  rw [if_neg (not_lt.mpr h0), if_neg (not_lt.mpr h1)]

theorem wrap01_of_gt (x : ℚ) (h : 1 < x) : wrap01 x = x - 1 := by
  unfold wrap01
  dsimp only
  rw [if_neg (show ¬ x < 0 by linarith), if_pos h]

theorem wrap01_mem (t : ℚ) (h1 : -1 ≤ t) (h2 : t ≤ 2) :
    0 ≤ wrap01 t ∧ wrap01 t ≤ 1 := by
  unfold wrap01
  dsimp only
  split_ifs <;> constructor <;> linarith

theorem hueW_mem (t : ℚ) : 0 ≤ hueW t ∧ hueW t ≤ 1 := by
  unfold hueW
  constructor
  · exact le_max_left 0 _
  · rcases le_total (min 1 (min (6 * t) (4 - 6 * t))) 0 with h | h
    · rw [max_eq_left h]; linarith
    · rw [max_eq_right h]; exact min_le_left 1 _

theorem hueW_eq_zero (x : ℚ) (h : 2/3 ≤ x) : hueW x = 0 := by
  unfold hueW
  rw [show (6 * x) ⊓ (4 - 6 * x) = 4 - 6 * x from min_eq_right (by linarith),
    show (1 : ℚ) ⊓ (4 - 6 * x) = 4 - 6 * x from min_eq_right (by linarith),
    max_eq_left (by linarith)]

/-- `hue_to_rgb` as an affine interpolation by the weight `hueW`. -/
theorem hue2rgb_w_form (p q t : ℚ) (h0 : 0 ≤ wrap01 t) (_h1 : wrap01 t ≤ 1) :
    hue2rgb p q t = p + (q - p) * hueW (wrap01 t) := by
  have he : hue2rgb p q t =
      (if wrap01 t < 1/6 then p + (q - p) * 6 * wrap01 t
       else if wrap01 t < 1/2 then q
       else if wrap01 t < 2/3 then p + (q - p) * (2/3 - wrap01 t) * 6
       else p) := rfl
  rw [he]
  unfold hueW
  set x := wrap01 t with hx
  split_ifs with ha hb hc
  · rw [show (6 * x) ⊓ (4 - 6 * x) = 6 * x from min_eq_left (by linarith),
      show (1 : ℚ) ⊓ (6 * x) = 6 * x from min_eq_right (by linarith),
      max_eq_right (by linarith)]
    ring
  · rw [show (1 : ℚ) ⊓ ((6 * x) ⊓ (4 - 6 * x)) = 1 from
      min_eq_left (le_min (by linarith) (by linarith)),
      max_eq_right (by norm_num)]
    ring
  · rw [show (6 * x) ⊓ (4 - 6 * x) = 4 - 6 * x from min_eq_right (by linarith),
      show (1 : ℚ) ⊓ (4 - 6 * x) = 4 - 6 * x from min_eq_right (by linarith),
      max_eq_right (by linarith)]
    ring
  · rw [show (6 * x) ⊓ (4 - 6 * x) = 4 - 6 * x from min_eq_right (by linarith),
      show (1 : ℚ) ⊓ (4 - 6 * x) = 4 - 6 * x from min_eq_right (by linarith),
      max_eq_left (by linarith)]
    ring

theorem abs_max0_sub (x y : ℚ) : |max 0 x - max 0 y| ≤ |x - y| := by
  have hx1 := le_abs_self (x - y)
  have hx2 := neg_abs_le (x - y)
  rcases le_total x 0 with hx | hx <;> rcases le_total y 0 with hy | hy <;>
    [rw [max_eq_left hx, max_eq_left hy];
     rw [max_eq_left hx, max_eq_right hy];
     rw [max_eq_right hx, max_eq_left hy];
     rw [max_eq_right hx, max_eq_right hy]] <;>
    rw [abs_le] <;> constructor <;> linarith

theorem abs_min1_sub (x y : ℚ) : |min 1 x - min 1 y| ≤ |x - y| := by
  have hx1 := le_abs_self (x - y)
  have hx2 := neg_abs_le (x - y)
  rcases le_total x 1 with hx | hx <;> rcases le_total y 1 with hy | hy <;>
    [rw [min_eq_right hx, min_eq_right hy];
     rw [min_eq_right hx, min_eq_left hy];
     rw [min_eq_left hx, min_eq_right hy];
     rw [min_eq_left hx, min_eq_left hy]] <;>
    rw [abs_le] <;> constructor <;> linarith

theorem abs_min_ramps_sub (a b : ℚ) :
    |min (6 * a) (4 - 6 * a) - min (6 * b) (4 - 6 * b)| ≤ 6 * |a - b| := by
  have hx1 := le_abs_self (a - b)
  have hx2 := neg_abs_le (a - b)
  rcases le_total (6 * a) (4 - 6 * a) with hA | hA <;>
    rcases le_total (6 * b) (4 - 6 * b) with hB | hB <;>
    [rw [min_eq_left hA, min_eq_left hB];
     rw [min_eq_left hA, min_eq_right hB];
     rw [min_eq_right hA, min_eq_left hB];
     rw [min_eq_right hA, min_eq_right hB]] <;>
    rw [abs_le] <;> constructor <;> linarith

/-- `hueW` is 6-Lipschitz. -/
theorem hueW_lipschitz (a b : ℚ) : |hueW a - hueW b| ≤ 6 * |a - b| := by
  unfold hueW
  calc |max 0 (min 1 (min (6 * a) (4 - 6 * a))) -
        max 0 (min 1 (min (6 * b) (4 - 6 * b)))|
      ≤ |min 1 (min (6 * a) (4 - 6 * a)) - min 1 (min (6 * b) (4 - 6 * b))| :=
        abs_max0_sub _ _
    _ ≤ |min (6 * a) (4 - 6 * a) - min (6 * b) (4 - 6 * b)| := abs_min1_sub _ _
    _ ≤ 6 * |a - b| := abs_min_ramps_sub a b

/-- `hueW` after the wrap is 6-Lipschitz on the band that the code's
positions inhabit. -/
theorem hueW_wrap_lipschitz (a b : ℚ)
    (ha1 : -1/3 ≤ a) (ha2 : a ≤ 4/3) (hb1 : -1/3 ≤ b) (hb2 : b ≤ 4/3) :
    |hueW (wrap01 a) - hueW (wrap01 b)| ≤ 6 * |a - b| := by
  have hW0 : hueW 0 = 0 := by unfold hueW; norm_num
  have hW1 : hueW 1 = 0 := hueW_eq_zero 1 (by norm_num)
  have key : ∀ u v : ℚ, -1/3 ≤ u → u ≤ 4/3 → -1/3 ≤ v → v ≤ 4/3 → u ≤ v →
      |hueW (wrap01 u) - hueW (wrap01 v)| ≤ 6 * |u - v| := by
    intro u v hu1 hu2 hv1 hv2 huv
    have habs : |u - v| = v - u := by
      rw [abs_sub_comm, abs_of_nonneg (by linarith)]
    rcases lt_or_le v 0 with hv0 | hv0
    · rw [wrap01_of_neg u (by linarith) (by linarith),
        wrap01_of_neg v hv0 (by linarith),
        hueW_eq_zero (u + 1) (by linarith), hueW_eq_zero (v + 1) (by linarith)]
      rw [habs]
      simp only [sub_self, abs_zero]
      linarith
    · rcases lt_or_le (1 : ℚ) u with hu1' | hu1'
      · rw [wrap01_of_gt u hu1', wrap01_of_gt v (by linarith)]
        calc |hueW (u - 1) - hueW (v - 1)| ≤ 6 * |u - 1 - (v - 1)| :=
            hueW_lipschitz (u - 1) (v - 1)
          _ = 6 * |u - v| := by ring_nf
      · rcases lt_or_le u 0 with hu0 | hu0
        · rcases le_or_lt v 1 with hv1' | hv1'
          · rw [wrap01_of_neg u hu0 (by linarith), wrap01_of_mem v hv0 hv1',
              hueW_eq_zero (u + 1) (by linarith)]
            have hl := hueW_lipschitz v 0
            rw [hW0, sub_zero, sub_zero] at hl
            rw [abs_sub_comm, sub_zero, habs]
            calc |hueW v| ≤ 6 * |v| := hl
              _ ≤ 6 * (v - u) := by
                rw [abs_of_nonneg hv0]
                linarith
          · have hm1 := hueW_mem (wrap01 u)
            have hm2 := hueW_mem (wrap01 v)
            have hle : |hueW (wrap01 u) - hueW (wrap01 v)| ≤ 1 := by
              rw [abs_le]
              constructor <;> linarith
            calc |hueW (wrap01 u) - hueW (wrap01 v)| ≤ 1 := hle
              _ ≤ 6 * |u - v| := by
                rw [habs]
                linarith
        · rcases le_or_lt v 1 with hv1' | hv1'
          · rw [wrap01_of_mem u hu0 (by linarith), wrap01_of_mem v hv0 hv1']
            exact hueW_lipschitz u v
          · rw [wrap01_of_mem u hu0 (by linarith), wrap01_of_gt v hv1']
            have l1 := hueW_lipschitz u 1
            have l2 := hueW_lipschitz (v - 1) 0
            rw [hW1, sub_zero] at l1
            rw [hW0, sub_zero, sub_zero] at l2
            have habs1 : |u - (1:ℚ)| = 1 - u := by
              rw [abs_sub_comm, abs_of_nonneg (by linarith)]
            have habs2 : |v - (1:ℚ)| = v - 1 := abs_of_nonneg (by linarith)
            rw [habs1] at l1
            rw [habs2] at l2
            calc |hueW u - hueW (v - 1)|
                ≤ |hueW u| + |hueW (v - 1)| := by
                  simpa [sub_eq_add_neg, abs_neg] using
                    abs_add (hueW u) (-(hueW (v - 1)))
              _ ≤ 6 * (1 - u) + 6 * (v - 1) := add_le_add l1 l2
              _ ≤ 6 * |u - v| := by
                  rw [habs]
                  linarith
  rcases le_total a b with hab | hab
  · exact key a b ha1 ha2 hb1 hb2 hab
  · rw [abs_sub_comm, abs_sub_comm a b]
    exact key b a hb1 hb2 ha1 ha2 hab

/-- `rgb_to_hsl` written through the exact pre-rounding values. -/
theorem rgb_to_hsl_eq (rgb : ℤ × ℤ × ℤ) :
    rgb_to_hsl rgb =
      if maxC rgb = minC rgb then (0, 0, round1 (lQ rgb * 100))
      else (round1 (h0Q rgb * 360), round1 (sQ rgb * 100),
        round1 (lQ rgb * 100)) := by
  rfl

theorem round1_nonneg (x : ℚ) (h : 0 ≤ x) : 0 ≤ round1 x := by
  have habs := rhe_abs_le (10 * x)
  have h1 : (rhe (10 * x) : ℚ) ≥ 10 * x - 1/2 := by
    rcases abs_le.mp habs with ⟨hl, _⟩
    linarith
  have h2 : (0 : ℤ) ≤ rhe (10 * x) := by
    by_contra hc
    push_neg at hc
    have hle : rhe (10 * x) ≤ -1 := by omega
    have : ((rhe (10 * x) : ℤ) : ℚ) ≤ -1 := by exact_mod_cast hle
    linarith
  unfold round1
  have : (0 : ℚ) ≤ (rhe (10 * x) : ℚ) := by exact_mod_cast h2
  linarith

theorem round1_le_int (x : ℚ) (n : ℤ) (h : x ≤ n) : round1 x ≤ n := by
  have habs := rhe_abs_le (10 * x)
  have h1 : (rhe (10 * x) : ℚ) ≤ 10 * x + 1/2 := by
    rcases abs_le.mp habs with ⟨_, hr⟩
    linarith
  have h2 : rhe (10 * x) ≤ 10 * n := by
    by_contra hc
    push_neg at hc
    have hge : 10 * n + 1 ≤ rhe (10 * x) := by omega
    have : ((10 * n + 1 : ℤ) : ℚ) ≤ (rhe (10 * x) : ℚ) := by exact_mod_cast hge
    push_cast at this
    linarith
  unfold round1
  have : ((rhe (10 * x) : ℤ) : ℚ) ≤ ((10 * n : ℤ) : ℚ) := by exact_mod_cast h2
  push_cast at this
  linarith

theorem chan_le_maxC (rgb : ℤ × ℤ × ℤ) :
    rQ rgb ≤ maxC rgb ∧ gQ rgb ≤ maxC rgb ∧ bQ rgb ≤ maxC rgb ∧
      minC rgb ≤ rQ rgb ∧ minC rgb ≤ gQ rgb ∧ minC rgb ≤ bQ rgb := by
  unfold maxC minC
  refine ⟨le_max_left _ _, ?_, ?_, min_le_left _ _, ?_, ?_⟩
  · exact le_max_of_le_right (le_max_left _ _)
  · exact le_max_of_le_right (le_max_right _ _)
  · exact min_le_of_right_le (min_le_left _ _)
  · exact min_le_of_right_le (min_le_right _ _)

theorem chanQ_bounds (c : ℤ) (h1 : 0 ≤ c) (h2 : c ≤ 255) :
    0 ≤ (c : ℚ) / 255 ∧ (c : ℚ) / 255 ≤ 1 := by
  constructor
  · apply div_nonneg _ (by norm_num)
    exact_mod_cast h1
  · rw [div_le_one (by norm_num)]
    exact_mod_cast h2

theorem minmax_bounds (rgb : ℤ × ℤ × ℤ)
    (h : 0 ≤ rgb.1 ∧ rgb.1 ≤ 255 ∧ 0 ≤ rgb.2.1 ∧ rgb.2.1 ≤ 255 ∧
      0 ≤ rgb.2.2 ∧ rgb.2.2 ≤ 255) :
    0 ≤ minC rgb ∧ minC rgb ≤ maxC rgb ∧ maxC rgb ≤ 1 := by
  obtain ⟨h1, h2, h3, h4, h5, h6⟩ := h
  obtain ⟨hr0, hr1⟩ := chanQ_bounds rgb.1 h1 h2
  obtain ⟨hg0, hg1⟩ := chanQ_bounds rgb.2.1 h3 h4
  obtain ⟨hb0, hb1⟩ := chanQ_bounds rgb.2.2 h5 h6
  obtain ⟨hc1, hc2, hc3, hc4, hc5, hc6⟩ := chan_le_maxC rgb
  refine ⟨?_, le_trans hc4 hc1, ?_⟩
  · unfold minC rQ gQ bQ at *
    exact le_min hr0 (le_min hg0 hb0)
  · unfold maxC rQ gQ bQ at *
    exact max_le hr1 (max_le hg1 hb1)

theorem lQ_bounds (rgb : ℤ × ℤ × ℤ)
    (h : 0 ≤ rgb.1 ∧ rgb.1 ≤ 255 ∧ 0 ≤ rgb.2.1 ∧ rgb.2.1 ≤ 255 ∧
      0 ≤ rgb.2.2 ∧ rgb.2.2 ≤ 255) :
    0 ≤ lQ rgb ∧ lQ rgb ≤ 1 := by
  obtain ⟨ha, hb, hc⟩ := minmax_bounds rgb h
  unfold lQ
  constructor <;> linarith

theorem dQ_pos (rgb : ℤ × ℤ × ℤ) (hne : ¬ maxC rgb = minC rgb) :
    0 < dQ rgb := by
  obtain ⟨hc1, _, _, hc4, _, _⟩ := chan_le_maxC rgb
  have hle : minC rgb ≤ maxC rgb := le_trans hc4 hc1
  unfold dQ
  rcases lt_or_eq_of_le hle with hlt | heq
  · linarith
  · exact absurd heq.symm hne

theorem sQ_bounds (rgb : ℤ × ℤ × ℤ)
    (h : 0 ≤ rgb.1 ∧ rgb.1 ≤ 255 ∧ 0 ≤ rgb.2.1 ∧ rgb.2.1 ≤ 255 ∧
      0 ≤ rgb.2.2 ∧ rgb.2.2 ≤ 255) (hne : ¬ maxC rgb = minC rgb) :
    0 ≤ sQ rgb ∧ sQ rgb ≤ 1 ∧ dQ rgb / 2 ≤ sQ rgb := by
  obtain ⟨hm0, hmm, hM1⟩ := minmax_bounds rgb h
  have hd := dQ_pos rgb hne
  have hdlt : minC rgb < maxC rgb := by unfold dQ at hd; linarith
  have hMpos : 0 < maxC rgb := lt_of_le_of_lt hm0 hdlt
  have hm1 : minC rgb < 1 := lt_of_lt_of_le hdlt hM1
  unfold sQ
  split_ifs with hl
  · have hden : 0 < 2 - maxC rgb - minC rgb := by linarith
    refine ⟨div_nonneg (le_of_lt hd) (le_of_lt hden), ?_, ?_⟩
    · rw [div_le_one hden]
      unfold dQ
      linarith
    · apply div_le_div_of_nonneg_left (le_of_lt hd) hden
      linarith
  · have hden : 0 < maxC rgb + minC rgb := by linarith
    refine ⟨div_nonneg (le_of_lt hd) (le_of_lt hden), ?_, ?_⟩
    · rw [div_le_one hden]
      unfold dQ
      linarith
    · apply div_le_div_of_nonneg_left (le_of_lt hd) hden
      linarith

theorem h0Q_bounds (rgb : ℤ × ℤ × ℤ) (hne : ¬ maxC rgb = minC rgb) :
    0 ≤ h0Q rgb ∧ h0Q rgb < 1 := by
  have hd := dQ_pos rgb hne
  obtain ⟨hc1, hc2, hc3, hc4, hc5, hc6⟩ := chan_le_maxC rgb
  unfold h0Q
  split_ifs with hr hgb hg
  · -- max = r, g < b
    have hup : (gQ rgb - bQ rgb) / dQ rgb < 0 :=
      div_neg_of_neg_of_pos (by linarith) hd
    have hlo : -1 ≤ (gQ rgb - bQ rgb) / dQ rgb := by
      rw [le_div_iff₀ hd]
      unfold dQ
      linarith
    constructor
    · apply div_nonneg _ (by norm_num)
      linarith
    · rw [div_lt_one (by norm_num)]
      linarith
  · -- max = r, g ≥ b
    have hup : (gQ rgb - bQ rgb) / dQ rgb ≤ 1 := by
      rw [div_le_one hd]
      unfold dQ
      linarith
    have hlo : 0 ≤ (gQ rgb - bQ rgb) / dQ rgb := by
      apply div_nonneg _ (le_of_lt hd)
      push_neg at hgb
      linarith
    constructor
    · apply div_nonneg _ (by norm_num)
      linarith
    · rw [div_lt_one (by norm_num)]
      linarith
  · -- max = g
    have hup : (bQ rgb - rQ rgb) / dQ rgb ≤ 1 := by
      rw [div_le_one hd]
      unfold dQ
      linarith
    have hlo : -1 ≤ (bQ rgb - rQ rgb) / dQ rgb := by
      rw [le_div_iff₀ hd]
      unfold dQ
      linarith
    constructor
    · apply div_nonneg _ (by norm_num)
      linarith
    · rw [div_lt_one (by norm_num)]
      linarith
  · -- max = b
    have hup : (rQ rgb - gQ rgb) / dQ rgb ≤ 1 := by
      rw [div_le_one hd]
      unfold dQ
      linarith
    have hlo : -1 ≤ (rQ rgb - gQ rgb) / dQ rgb := by
      rw [le_div_iff₀ hd]
      unfold dQ
      linarith
    constructor
    · apply div_nonneg _ (by norm_num)
      linarith
    · rw [div_lt_one (by norm_num)]
      linarith

/-- Ranges of the three components returned by `rgb_to_hsl`. -/
theorem rgb_to_hsl_range (rgb : ℤ × ℤ × ℤ)
    (h : 0 ≤ rgb.1 ∧ rgb.1 ≤ 255 ∧ 0 ≤ rgb.2.1 ∧ rgb.2.1 ≤ 255 ∧
      0 ≤ rgb.2.2 ∧ rgb.2.2 ≤ 255) :
    0 ≤ (rgb_to_hsl rgb).1 ∧ (rgb_to_hsl rgb).1 ≤ 360 ∧
    0 ≤ (rgb_to_hsl rgb).2.1 ∧ (rgb_to_hsl rgb).2.1 ≤ 100 ∧
    0 ≤ (rgb_to_hsl rgb).2.2 ∧ (rgb_to_hsl rgb).2.2 ≤ 100 := by
  obtain ⟨hl0, hl1⟩ := lQ_bounds rgb h
  rw [rgb_to_hsl_eq]
  split_ifs with hgray
  · refine ⟨le_refl 0, by norm_num, le_refl 0, by norm_num, ?_, ?_⟩
    · exact round1_nonneg _ (by linarith)
    · exact_mod_cast round1_le_int _ 100 (by push_cast; linarith)
  · obtain ⟨hs0, hs1, _⟩ := sQ_bounds rgb h hgray
    obtain ⟨hh0, hh1⟩ := h0Q_bounds rgb hgray
    refine ⟨?_, ?_, ?_, ?_, ?_, ?_⟩
    · exact round1_nonneg _ (by linarith)
    · exact_mod_cast round1_le_int _ 360 (by push_cast; nlinarith)
    · exact round1_nonneg _ (by linarith)
    · exact_mod_cast round1_le_int _ 100 (by push_cast; nlinarith)
    · exact round1_nonneg _ (by linarith)
    · exact_mod_cast round1_le_int _ 100 (by push_cast; nlinarith)

/-- The `q`/`p` pair of `hsl_to_rgb` in its closed form. -/
theorem hslq_closed (s l : ℚ) :
    (if l < 1/2 then l * (1 + s) else l + s - l * s) =
      l + s * min l (1 - l) := by
  split_ifs with hl
  · rw [min_eq_left (by linarith)]
    ring
  · rw [min_eq_right (by linarith)]
    ring

/-- Ranges of the channels returned by `hsl_to_rgb`. -/
theorem hsl_to_rgb_range (h s l : ℚ) (hh0 : 0 ≤ h) (hh1 : h ≤ 360)
    (hs0 : 0 ≤ s) (hs1 : s ≤ 100) (hl0 : 0 ≤ l) (hl1 : l ≤ 100) :
    0 ≤ (hsl_to_rgb h s l).1 ∧ (hsl_to_rgb h s l).1 ≤ 255 ∧
    0 ≤ (hsl_to_rgb h s l).2.1 ∧ (hsl_to_rgb h s l).2.1 ≤ 255 ∧
    0 ≤ (hsl_to_rgb h s l).2.2 ∧ (hsl_to_rgb h s l).2.2 ≤ 255 := by
  have hrb : ∀ x : ℚ, 0 ≤ x → x ≤ 1 → 0 ≤ rhe (x * 255) ∧ rhe (x * 255) ≤ 255 := by
    intro x hx0 hx1
    have habs := rhe_abs_le (x * 255)
    rcases abs_le.mp habs with ⟨hlo, hhi⟩
    constructor
    · by_contra hc
      push_neg at hc
      have hle : rhe (x * 255) ≤ -1 := by omega
      have : ((rhe (x * 255) : ℤ) : ℚ) ≤ -1 := by exact_mod_cast hle
      nlinarith
    · by_contra hc
      push_neg at hc
      have hge : 256 ≤ rhe (x * 255) := by omega
      have : (256 : ℚ) ≤ ((rhe (x * 255) : ℤ) : ℚ) := by exact_mod_cast hge
      nlinarith
  unfold hsl_to_rgb
  dsimp only
  by_cases hsz : s / 100 = 0
  · rw [if_pos hsz]
    have := hrb (l / 100) (by positivity) (by linarith)
    exact ⟨this.1, this.2, this.1, this.2, this.1, this.2⟩
  · rw [if_neg hsz, hslq_closed]
    have hsn0 : (0:ℚ) ≤ s / 100 := by positivity
    have hsn1 : s / 100 ≤ 1 := by linarith
    have hln0 : (0:ℚ) ≤ l / 100 := by positivity
    have hln1 : l / 100 ≤ 1 := by linarith
    set sn := s / 100 with hsn
    set ln := l / 100 with hln
    set q := ln + sn * min ln (1 - ln) with hqdef
    have hmin0 : 0 ≤ min ln (1 - ln) := le_min hln0 (by linarith)
    have hmin1 : min ln (1 - ln) ≤ ln := min_le_left _ _
    have hmin2 : min ln (1 - ln) ≤ 1 - ln := min_le_right _ _
    have hq0 : ln ≤ q := by rw [hqdef]; nlinarith
    have hq1 : q ≤ 1 := by rw [hqdef]; nlinarith
    have hp0 : 0 ≤ 2 * ln - q := by rw [hqdef]; nlinarith
    have hpq : 2 * ln - q ≤ q := by rw [hqdef]; nlinarith
    have hchan : ∀ t : ℚ, -1/3 ≤ t → t ≤ 4/3 →
        0 ≤ hue2rgb (2 * ln - q) q t ∧ hue2rgb (2 * ln - q) q t ≤ 1 := by
      intro t ht1 ht2
      obtain ⟨hw0, hw1⟩ := wrap01_mem t (by linarith) (by linarith)
      rw [hue2rgb_w_form _ _ _ hw0 hw1]
      obtain ⟨hW0, hW1⟩ := hueW_mem (wrap01 t)
      constructor
      · nlinarith
      · nlinarith
    have hhn0 : (0:ℚ) ≤ h / 360 := by positivity
    have hhn1 : h / 360 ≤ 1 := by linarith
    obtain ⟨c1a, c1b⟩ := hchan (h / 360 + 1/3) (by linarith) (by linarith)
    obtain ⟨c2a, c2b⟩ := hchan (h / 360) (by linarith) (by linarith)
    obtain ⟨c3a, c3b⟩ := hchan (h / 360 - 1/3) (by linarith) (by linarith)
    exact ⟨(hrb _ c1a c1b).1, (hrb _ c1a c1b).2, (hrb _ c2a c2b).1,
      (hrb _ c2a c2b).2, (hrb _ c3a c3b).1, (hrb _ c3a c3b).2⟩

/-! ## C1: the accessible-text search -/

theorem pyAdjust_bounds (gamma : ℚ → ℚ)
    (hg : ∀ x : ℚ, 0 ≤ x → x ≤ 1 → 0 ≤ gamma x ∧ gamma x ≤ 1)
    (c : ℤ) (h1 : 0 ≤ c) (h2 : c ≤ 255) :
    0 ≤ pyAdjust gamma c ∧ pyAdjust gamma c ≤ 1 := by
  obtain ⟨hc0, hc1⟩ := chanQ_bounds c h1 h2
  unfold pyAdjust
  dsimp only
  split_ifs with hsmall
  · constructor
    · exact div_nonneg hc0 (by norm_num)
    · rw [div_le_one (by norm_num)]
      linarith
  · apply hg
    · apply div_nonneg (by linarith) (by norm_num)
    · rw [div_le_one (by norm_num)]
      linarith

theorem calculate_luminance_bounds (gamma : ℚ → ℚ)
    (hg : ∀ x : ℚ, 0 ≤ x → x ≤ 1 → 0 ≤ gamma x ∧ gamma x ≤ 1)
    (rgb : ℤ × ℤ × ℤ)
    (h : 0 ≤ rgb.1 ∧ rgb.1 ≤ 255 ∧ 0 ≤ rgb.2.1 ∧ rgb.2.1 ≤ 255 ∧
      0 ≤ rgb.2.2 ∧ rgb.2.2 ≤ 255) :
    0 ≤ calculate_luminance gamma rgb ∧ calculate_luminance gamma rgb ≤ 1 := by
  obtain ⟨ha0, ha1⟩ := pyAdjust_bounds gamma hg rgb.1 h.1 h.2.1
  obtain ⟨hb0, hb1⟩ := pyAdjust_bounds gamma hg rgb.2.1 h.2.2.1 h.2.2.2.1
  obtain ⟨hc0, hc1⟩ := pyAdjust_bounds gamma hg rgb.2.2 h.2.2.2.2.1 h.2.2.2.2.2
  unfold calculate_luminance
  constructor <;> nlinarith

theorem lum_black (gamma : ℚ → ℚ) :
    calculate_luminance gamma (0, 0, 0) = 0 := by
  simp only [calculate_luminance, pyAdjust]
  norm_num

theorem lum_white (gamma : ℚ → ℚ) (hg1 : gamma 1 = 1) :
    calculate_luminance gamma (255, 255, 255) = 1 := by
  simp only [calculate_luminance, pyAdjust]
  norm_num
  rw [hg1]
  norm_num

theorem hex_black : hex_to_rgb "#000000" = .ok (0, 0, 0) := by rfl

theorem hex_white : hex_to_rgb "#FFFFFF" = .ok (255, 255, 255) := by rfl

theorem contrast_black_eq (gamma : ℚ → ℚ) (bg : String) (t : ℤ × ℤ × ℤ)
    (ht : hex_to_rgb bg = .ok t) (hL0 : 0 ≤ calculate_luminance gamma t) :
    get_contrast_ratio gamma "#000000" bg =
      .ok (20 * calculate_luminance gamma t + 1) := by
  unfold get_contrast_ratio
  rw [hex_black, exceptBindOk, ht, exceptBindOk]
  dsimp only
  rw [lum_black]
  rw [max_eq_right hL0, min_eq_left hL0]
  congr 1
  rw [div_eq_iff (by norm_num)]
  ring

theorem contrast_white_eq (gamma : ℚ → ℚ) (bg : String) (t : ℤ × ℤ × ℤ)
    (ht : hex_to_rgb bg = .ok t) (hg1 : gamma 1 = 1)
    (hL1 : calculate_luminance gamma t ≤ 1) :
    get_contrast_ratio gamma "#FFFFFF" bg =
      .ok ((21/20) / (calculate_luminance gamma t + 1/20)) := by
  unfold get_contrast_ratio
  rw [hex_white, exceptBindOk, ht, exceptBindOk]
  dsimp only
  rw [lum_white gamma hg1]
  rw [max_eq_left hL1, min_eq_right hL1]
  congr 1
  norm_num

theorem get_wcag_rating_ne_fail (q : ℚ) (h : 3 ≤ q) :
    get_wcag_rating q ≠ "Fail" := by
  unfold get_wcag_rating WCAGThresholds.AAA WCAGThresholds.AA
    WCAGThresholds.AA_LARGE
  split_ifs <;> simp_all

theorem tryTextColor_of_ratio (gamma : ℚ → ℚ) (hexC bg : String) (q : ℚ)
    (hq : get_contrast_ratio gamma hexC bg = .ok q) :
    tryTextColor gamma hexC bg "AA" =
      .ok (if 3 ≤ q then some (hexC, q, get_wcag_rating q) else none) := by
  unfold tryTextColor
  rw [hq, exceptBindOk]
  dsimp only
  by_cases h3 : 3 ≤ q
  · rw [if_pos h3]
    rw [if_pos ?_]
    · rfl
    · right
      refine ⟨rfl, ?_⟩
      unfold get_wcag_rating WCAGThresholds.AAA WCAGThresholds.AA
        WCAGThresholds.AA_LARGE
      split_ifs <;> simp_all
  · rw [if_neg h3]
    rw [if_neg ?_]
    · rfl
    · have hfail : get_wcag_rating q = "Fail" := by
        unfold get_wcag_rating WCAGThresholds.AAA WCAGThresholds.AA
          WCAGThresholds.AA_LARGE
        rw [if_neg (by intro hc; exact h3 (by linarith)),
          if_neg (by intro hc; exact h3 (by linarith)),
          if_neg (by intro hc; exact h3 (by linarith))]
      rw [hfail]
      rintro (hc | ⟨-, hc | hc | hc⟩) <;> simp_all

/-- C1: for every valid background color the accessible-text search with
target "AA" and the default 20-iteration budget returns normally and its
returned rating is not "Fail" (black is accepted when the background
luminance is at least 0.1, white otherwise, so the search never even
reaches the adjustment loop or the fallback). -/
theorem C1_find_accessible_text_aa (gamma : ℚ → ℚ)
    (hg : ∀ x : ℚ, 0 ≤ x → x ≤ 1 → 0 ≤ gamma x ∧ gamma x ≤ 1)
    (hg1 : gamma 1 = 1) (background : String)
    (hb : validate_hex_color background = true) :
    ∃ c r w, _find_accessible_text gamma background "AA" 20 = .ok (c, r, w) ∧
      w ≠ "Fail" := by
  obtain ⟨t, ht, hbounds⟩ := hex_to_rgb_of_valid background hb
  obtain ⟨hL0, hL1⟩ := calculate_luminance_bounds gamma hg t hbounds
  set L := calculate_luminance gamma t with hLdef
  have hcb := contrast_black_eq gamma background t ht hL0
  have hcw := contrast_white_eq gamma background t ht hg1 hL1
  have htb := tryTextColor_of_ratio gamma "#000000" background _ hcb
  have htw := tryTextColor_of_ratio gamma "#FFFFFF" background _ hcw
  by_cases hc : 1/10 ≤ L
  · have h3 : 3 ≤ 20 * L + 1 := by linarith
    rw [if_pos h3] at htb
    refine ⟨"#000000", 20 * L + 1, get_wcag_rating (20 * L + 1), ?_,
      get_wcag_rating_ne_fail _ h3⟩
    unfold _find_accessible_text
    rw [htb, exceptBindOk]
    rfl
  · push_neg at hc
    have hpos : (0:ℚ) < L + 1/20 := by linarith
    have h7 : 3 ≤ (21/20) / (L + 1/20) := by
      rw [le_div_iff₀ hpos]
      linarith
    rw [if_neg (by linarith)] at htb
    rw [if_pos h7] at htw
    refine ⟨"#FFFFFF", (21/20) / (L + 1/20),
      get_wcag_rating ((21/20) / (L + 1/20)), ?_,
      get_wcag_rating_ne_fail _ h7⟩
    unfold _find_accessible_text
    rw [htb, exceptBindOk]
    dsimp only
    rw [htw, exceptBindOk]
    rfl

theorem C1_find_accessible_text_aa_witness :
    ∃ c r w,
      _find_accessible_text (fun x => x) "#808080" "AA" 20 = .ok (c, r, w) ∧
        w ≠ "Fail" :=
  C1_find_accessible_text_aa (fun x => x)
    (fun _ h1 h2 => ⟨h1, h2⟩) rfl "#808080" (by decide)

/-! ## C5: exact round-trip identity and rounding perturbation -/

theorem hueW_of_low (x : ℚ) (h0 : 0 ≤ x) (h1 : x ≤ 1/6) :
    hueW x = 6 * x := by
  unfold hueW
  rw [show (6 * x) ⊓ (4 - 6 * x) = 6 * x from min_eq_left (by linarith),
    show (1 : ℚ) ⊓ (6 * x) = 6 * x from min_eq_right (by linarith),
    max_eq_right (by linarith)]

theorem hueW_of_mid (x : ℚ) (h0 : 1/6 ≤ x) (h1 : x ≤ 1/2) :
    hueW x = 1 := by
  unfold hueW
  rw [show (1 : ℚ) ⊓ ((6 * x) ⊓ (4 - 6 * x)) = 1 from
    min_eq_left (le_min (by linarith) (by linarith)),
    max_eq_right (by norm_num)]

theorem hueW_of_down (x : ℚ) (h0 : 1/2 ≤ x) (h1 : x ≤ 2/3) :
    hueW x = 4 - 6 * x := by
  unfold hueW
  rw [show (6 * x) ⊓ (4 - 6 * x) = 4 - 6 * x from min_eq_right (by linarith),
    show (1 : ℚ) ⊓ (4 - 6 * x) = 4 - 6 * x from min_eq_right (by linarith),
    max_eq_right (by linarith)]

theorem maxC_int (rgb : ℤ × ℤ × ℤ) :
    maxC rgb = ((max rgb.1 (max rgb.2.1 rgb.2.2) : ℤ) : ℚ) / 255 := by
  unfold maxC rQ gQ bQ
  rw [max_div_div_right (by norm_num : (0:ℚ) ≤ 255),
    max_div_div_right (by norm_num : (0:ℚ) ≤ 255)]
  push_cast
  rfl

theorem minC_int (rgb : ℤ × ℤ × ℤ) :
    minC rgb = ((min rgb.1 (min rgb.2.1 rgb.2.2) : ℤ) : ℚ) / 255 := by
  unfold minC rQ gQ bQ
  rw [min_div_div_right (by norm_num : (0:ℚ) ≤ 255),
    min_div_div_right (by norm_num : (0:ℚ) ≤ 255)]
  push_cast
  rfl

/-- Integer channels leave a gap of at least 1/255 between distinct
normalized extremes. -/
theorem dQ_ge (rgb : ℤ × ℤ × ℤ) (hne : ¬ maxC rgb = minC rgb) :
    1/255 ≤ dQ rgb := by
  unfold dQ
  rw [maxC_int, minC_int] at *
  set M := max rgb.1 (max rgb.2.1 rgb.2.2) with hM
  set m := min rgb.1 (min rgb.2.1 rgb.2.2) with hm
  have hle : m ≤ M := le_trans (min_le_left _ _) (le_max_left _ _)
  have hint : m ≠ M := by
    intro hc
    exact hne (by rw [hc])
  have hgap : m + 1 ≤ M := by omega
  have : ((m : ℚ) + 1) ≤ (M : ℚ) := by exact_mod_cast hgap
  rw [div_sub_div_same, le_div_iff₀ (by norm_num : (0:ℚ) < 255)]
  linarith

theorem abs_minself_sub (a b : ℚ) :
    |min a (1 - a) - min b (1 - b)| ≤ |a - b| := by
  have hx1 := le_abs_self (a - b)
  have hx2 := neg_abs_le (a - b)
  rcases le_total a (1 - a) with hA | hA <;>
    rcases le_total b (1 - b) with hB | hB <;>
    [rw [min_eq_left hA, min_eq_left hB];
     rw [min_eq_left hA, min_eq_right hB];
     rw [min_eq_right hA, min_eq_left hB];
     rw [min_eq_right hA, min_eq_right hB]] <;>
    rw [abs_le] <;> constructor <;> linarith

/-- Closed form of the code's `q`: with the exact saturation and
lightness it reconstructs the channel maximum. -/
theorem q_exact (rgb : ℤ × ℤ × ℤ)
    (h : 0 ≤ rgb.1 ∧ rgb.1 ≤ 255 ∧ 0 ≤ rgb.2.1 ∧ rgb.2.1 ≤ 255 ∧
      0 ≤ rgb.2.2 ∧ rgb.2.2 ≤ 255)
    (hne : ¬ maxC rgb = minC rgb) :
    lQ rgb + sQ rgb * min (lQ rgb) (1 - lQ rgb) = maxC rgb := by
  obtain ⟨hm0, hmM, hM1⟩ := minmax_bounds rgb h
  have hd : 0 < dQ rgb := dQ_pos rgb hne
  unfold sQ lQ dQ at *
  set M := maxC rgb
  set m := minC rgb
  split_ifs with hl
  · have hden : 2 - M - m > 0 := by linarith
    rw [min_eq_right (by linarith)]
    field_simp
    try ring
  · have hden : M + m > 0 := by linarith
    rw [min_eq_left (by linarith)]
    field_simp
    try ring

/-- With the exact (pre-rounding) hue, the three `hue_to_rgb` sample
positions reconstruct the three channels exactly. -/
theorem hsl_exact_identity (rgb : ℤ × ℤ × ℤ)
    (hne : ¬ maxC rgb = minC rgb) :
    minC rgb + dQ rgb * hueW (wrap01 (h0Q rgb + 1/3)) = rQ rgb ∧
    minC rgb + dQ rgb * hueW (wrap01 (h0Q rgb)) = gQ rgb ∧
    minC rgb + dQ rgb * hueW (wrap01 (h0Q rgb - 1/3)) = bQ rgb := by
  obtain ⟨hrM, hgM, hbM, hmr, hmg, hmb⟩ := chan_le_maxC rgb
  have hd : 0 < dQ rgb := dQ_pos rgb hne
  by_cases hr : maxC rgb = rQ rgb
  · have hgr : gQ rgb ≤ rQ rgb := hr ▸ hgM
    have hbr : bQ rgb ≤ rQ rgb := hr ▸ hbM
    by_cases hgb : gQ rgb < bQ rgb
    · -- max = r, g < b: min = g
      have hm : minC rgb = gQ rgb := by
        unfold minC
        rw [min_eq_left (le_of_lt hgb), min_eq_right hgr]
      have hd2 : dQ rgb = rQ rgb - gQ rgb := by
        unfold dQ
        rw [hr, hm]
      have hh : h0Q rgb = ((gQ rgb - bQ rgb) / dQ rgb + 6) / 6 := by
        unfold h0Q
        rw [if_pos hr, if_pos hgb]
      set u := (gQ rgb - bQ rgb) / dQ rgb with hudef
      have hdu : dQ rgb * u = gQ rgb - bQ rgb := by
        rw [hudef]
        field_simp
      have hu0 : u < 0 := div_neg_of_neg_of_pos (by linarith) hd
      have hu1 : -1 ≤ u := by
        rw [hudef, le_div_iff₀ hd, hd2]
        linarith
      refine ⟨?_, ?_, ?_⟩
      · rw [hh, show ((u + 6) / 6 + 1/3 : ℚ) = u/6 + 4/3 by ring,
          wrap01_of_gt _ (by linarith),
          show (u/6 + 4/3 - 1 : ℚ) = u/6 + 1/3 by ring,
          hueW_of_mid _ (by linarith) (by linarith), hm, hd2]
        ring
      · rw [hh, show ((u + 6) / 6 : ℚ) = u/6 + 1 by ring,
          wrap01_of_mem _ (by linarith) (by linarith),
          hueW_eq_zero _ (by linarith), hm]
        ring
      · rw [hh, show ((u + 6) / 6 - 1/3 : ℚ) = u/6 + 2/3 by ring,
          wrap01_of_mem _ (by linarith) (by linarith),
          hueW_of_down _ (by linarith) (by linarith),
          show (4 - 6 * (u/6 + 2/3) : ℚ) = -u by ring, hm]
        have : dQ rgb * (-u) = bQ rgb - gQ rgb := by
          rw [mul_neg, hdu]
          ring
        linarith
    · -- max = r, b ≤ g: min = b
      push_neg at hgb
      have hm : minC rgb = bQ rgb := by
        unfold minC
        rw [min_eq_right hgb, min_eq_right hbr]
      have hd2 : dQ rgb = rQ rgb - bQ rgb := by
        unfold dQ
        rw [hr, hm]
      have hh : h0Q rgb = (gQ rgb - bQ rgb) / dQ rgb / 6 := by
        unfold h0Q
        rw [if_pos hr, if_neg (not_lt.mpr hgb)]
        ring
      set u := (gQ rgb - bQ rgb) / dQ rgb with hudef
      have hdu : dQ rgb * u = gQ rgb - bQ rgb := by
        rw [hudef]
        field_simp
      have hu0 : 0 ≤ u := div_nonneg (by linarith) hd.le
      have hu1 : u ≤ 1 := by
        rw [hudef, div_le_one hd, hd2]
        linarith
      refine ⟨?_, ?_, ?_⟩
      · rw [hh, show (u / 6 + 1/3 : ℚ) = u/6 + 1/3 by ring,
          wrap01_of_mem _ (by linarith) (by linarith),
          hueW_of_mid _ (by linarith) (by linarith), hm, hd2]
        ring
      · rw [hh, wrap01_of_mem _ (by linarith) (by linarith),
          hueW_of_low _ (by linarith) (by linarith),
          show (6 * (u/6) : ℚ) = u by ring, hm]
        linarith
      · rw [hh, wrap01_of_neg _ (by linarith) (by linarith),
          show (u/6 - 1/3 + 1 : ℚ) = u/6 + 2/3 by ring,
          hueW_eq_zero _ (by linarith), hm]
        ring
  · by_cases hg : maxC rgb = gQ rgb
    · have hrg : rQ rgb ≤ gQ rgb := hg ▸ hrM
      have hbg : bQ rgb ≤ gQ rgb := hg ▸ hbM
      have hh : h0Q rgb = ((bQ rgb - rQ rgb) / dQ rgb + 2) / 6 := by
        unfold h0Q
        rw [if_neg hr, if_pos hg]
      set u := (bQ rgb - rQ rgb) / dQ rgb with hudef
      have hdu : dQ rgb * u = bQ rgb - rQ rgb := by
        rw [hudef]
        field_simp
      by_cases hrb : rQ rgb ≤ bQ rgb
      · -- max = g, r ≤ b: min = r
        have hm : minC rgb = rQ rgb := by
          unfold minC
          rw [min_eq_right hbg, min_eq_left hrb]
        have hd2 : dQ rgb = gQ rgb - rQ rgb := by
          unfold dQ
          rw [hg, hm]
        have hu0 : 0 ≤ u := div_nonneg (by linarith) hd.le
        have hu1 : u ≤ 1 := by
          rw [hudef, div_le_one hd, hd2]
          linarith
        refine ⟨?_, ?_, ?_⟩
        · rw [hh, show ((u + 2) / 6 + 1/3 : ℚ) = u/6 + 2/3 by ring,
            wrap01_of_mem _ (by linarith) (by linarith),
            hueW_eq_zero _ (by linarith), hm]
          ring
        · rw [hh, show ((u + 2) / 6 : ℚ) = u/6 + 1/3 by ring,
            wrap01_of_mem _ (by linarith) (by linarith),
            hueW_of_mid _ (by linarith) (by linarith), hm, hd2]
          ring
        · rw [hh, show ((u + 2) / 6 - 1/3 : ℚ) = u/6 by ring,
            wrap01_of_mem _ (by linarith) (by linarith),
            hueW_of_low _ (by linarith) (by linarith),
            show (6 * (u/6) : ℚ) = u by ring, hm]
          linarith
      · -- max = g, b < r: min = b
        push_neg at hrb
        have hm : minC rgb = bQ rgb := by
          unfold minC
          rw [min_eq_right hbg, min_eq_right (le_of_lt hrb)]
        have hd2 : dQ rgb = gQ rgb - bQ rgb := by
          unfold dQ
          rw [hg, hm]
        have hu0 : u < 0 := div_neg_of_neg_of_pos (by linarith) hd
        have hu1 : -1 ≤ u := by
          rw [hudef, le_div_iff₀ hd, hd2]
          linarith
        refine ⟨?_, ?_, ?_⟩
        · rw [hh, show ((u + 2) / 6 + 1/3 : ℚ) = u/6 + 2/3 by ring,
            wrap01_of_mem _ (by linarith) (by linarith),
            hueW_of_down _ (by linarith) (by linarith),
            show (4 - 6 * (u/6 + 2/3) : ℚ) = -u by ring, hm]
          have : dQ rgb * (-u) = rQ rgb - bQ rgb := by
            rw [mul_neg, hdu]
            ring
          linarith
        · rw [hh, show ((u + 2) / 6 : ℚ) = u/6 + 1/3 by ring,
            wrap01_of_mem _ (by linarith) (by linarith),
            hueW_of_mid _ (by linarith) (by linarith), hm, hd2]
          ring
        · rw [hh, show ((u + 2) / 6 - 1/3 : ℚ) = u/6 by ring,
            wrap01_of_neg _ (by linarith) (by linarith),
            hueW_eq_zero _ (by linarith), hm]
          ring
    · -- max = b
      have hb : maxC rgb = bQ rgb := by
        have h1 : maxC rgb = rQ rgb ∨ maxC rgb = max (gQ rgb) (bQ rgb) :=
          max_choice _ _
        rcases h1 with h1 | h1
        · exact absurd h1 hr
        · rcases max_choice (gQ rgb) (bQ rgb) with h2 | h2
          · rw [h1, h2] at hg
            exact absurd rfl hg
          · rw [h1, h2]
      have hrb : rQ rgb ≤ bQ rgb := hb ▸ hrM
      have hgb2 : gQ rgb ≤ bQ rgb := hb ▸ hgM
      have hh : h0Q rgb = ((rQ rgb - gQ rgb) / dQ rgb + 4) / 6 := by
        unfold h0Q
        rw [if_neg hr, if_neg hg]
      set u := (rQ rgb - gQ rgb) / dQ rgb with hudef
      have hdu : dQ rgb * u = rQ rgb - gQ rgb := by
        rw [hudef]
        field_simp
      by_cases hgr2 : gQ rgb ≤ rQ rgb
      · -- max = b, g ≤ r: min = g
        have hm : minC rgb = gQ rgb := by
          unfold minC
          rw [min_eq_left hgb2, min_eq_right hgr2]
        have hd2 : dQ rgb = bQ rgb - gQ rgb := by
          unfold dQ
          rw [hb, hm]
        have hu0 : 0 ≤ u := div_nonneg (by linarith) hd.le
        have hu1 : u ≤ 1 := by
          rw [hudef, div_le_one hd, hd2]
          linarith
        refine ⟨?_, ?_, ?_⟩
        · rcases eq_or_lt_of_le hu0 with heq | hpos
          · rw [hh, show ((u + 4) / 6 + 1/3 : ℚ) = u/6 + 1 by ring]
            rw [← heq]
            rw [show ((0:ℚ)/6 + 1 : ℚ) = 1 by norm_num,
              wrap01_of_mem _ (by norm_num) (by norm_num),
              hueW_eq_zero _ (by norm_num), hm]
            rw [← heq] at hdu
            have : rQ rgb = gQ rgb := by linarith [hdu]
            rw [this]
            ring
          · rw [hh, show ((u + 4) / 6 + 1/3 : ℚ) = u/6 + 1 by ring,
              wrap01_of_gt _ (by linarith),
              show (u/6 + 1 - 1 : ℚ) = u/6 by ring,
              hueW_of_low _ (by linarith) (by linarith),
              show (6 * (u/6) : ℚ) = u by ring, hm]
            linarith
        · rw [hh, show ((u + 4) / 6 : ℚ) = u/6 + 2/3 by ring,
            wrap01_of_mem _ (by linarith) (by linarith),
            hueW_eq_zero _ (by linarith), hm]
          ring
        · rw [hh, show ((u + 4) / 6 - 1/3 : ℚ) = u/6 + 1/3 by ring,
            wrap01_of_mem _ (by linarith) (by linarith),
            hueW_of_mid _ (by linarith) (by linarith), hm, hd2]
          ring
      · -- max = b, r < g: min = r
        push_neg at hgr2
        have hm : minC rgb = rQ rgb := by
          unfold minC
          rw [min_eq_left hgb2, min_eq_left (le_of_lt hgr2)]
        have hd2 : dQ rgb = bQ rgb - rQ rgb := by
          unfold dQ
          rw [hb, hm]
        have hu0 : u < 0 := div_neg_of_neg_of_pos (by linarith) hd
        have hu1 : -1 ≤ u := by
          rw [hudef, le_div_iff₀ hd, hd2]
          linarith
        refine ⟨?_, ?_, ?_⟩
        · rw [hh, show ((u + 4) / 6 + 1/3 : ℚ) = u/6 + 1 by ring,
            wrap01_of_mem _ (by linarith) (by linarith),
            hueW_eq_zero _ (by linarith), hm]
          ring
        · rw [hh, show ((u + 4) / 6 : ℚ) = u/6 + 2/3 by ring,
            wrap01_of_mem _ (by linarith) (by linarith),
            hueW_of_down _ (by linarith) (by linarith),
            show (4 - 6 * (u/6 + 2/3) : ℚ) = -u by ring, hm]
          have : dQ rgb * (-u) = gQ rgb - rQ rgb := by
            rw [mul_neg, hdu]
            ring
          linarith
        · rw [hh, show ((u + 4) / 6 - 1/3 : ℚ) = u/6 + 1/3 by ring,
            wrap01_of_mem _ (by linarith) (by linarith),
            hueW_of_mid _ (by linarith) (by linarith), hm, hd2]
          ring

theorem minself_le_half (a : ℚ) : min a (1 - a) ≤ 1/2 := by
  rcases le_total a (1 - a) with h | h
  · rw [min_eq_left h]
    linarith
  · rw [min_eq_right h]
    linarith

theorem hue_channel_core (p' q' pz qz W' Wz : ℚ) (X : ℤ)
    (hid : pz + (qz - pz) * Wz = (X : ℚ) / 255)
    (hdp : |p' - pz| ≤ 9/4000) (hdq : |q' - qz| ≤ 1/800)
    (hd0 : 0 ≤ qz - pz) (hd1 : qz - pz ≤ 1)
    (hW0 : 0 ≤ W') (hW1 : W' ≤ 1)
    (hWd : |W' - Wz| ≤ 1/1200) :
    |(p' + (q' - p') * W') * 255 - (X : ℚ)| < 3/2 := by
  have hX : (X : ℚ) = 255 * (pz + (qz - pz) * Wz) := by
    rw [hid]
    ring
  rw [show (p' + (q' - p') * W') * 255 - (X : ℚ) =
      255 * ((p' - pz) * (1 - W') + (q' - qz) * W' +
        (qz - pz) * (W' - Wz)) from by rw [hX]; ring]
  rw [abs_mul, abs_of_nonneg (by norm_num : (0:ℚ) ≤ 255)]
  have h1 : |(p' - pz) * (1 - W')| ≤ 9/4000 := by
    rw [abs_mul]
    have hle : |1 - W'| ≤ 1 := by
      rw [abs_le]
      constructor <;> linarith
    calc |p' - pz| * |1 - W'| ≤ (9/4000) * 1 :=
        mul_le_mul hdp hle (abs_nonneg _) (by norm_num)
      _ = 9/4000 := by norm_num
  have h2 : |(q' - qz) * W'| ≤ 1/800 := by
    rw [abs_mul]
    have hle : |W'| ≤ 1 := by
      rw [abs_le]
      constructor <;> linarith
    calc |q' - qz| * |W'| ≤ (1/800) * 1 :=
        mul_le_mul hdq hle (abs_nonneg _) (by norm_num)
      _ = 1/800 := by norm_num
  have h3 : |(qz - pz) * (W' - Wz)| ≤ 1/1200 := by
    rw [abs_mul]
    have hle : |qz - pz| ≤ 1 := by
      rw [abs_le]
      constructor <;> linarith
    calc |qz - pz| * |W' - Wz| ≤ 1 * (1/1200) :=
        mul_le_mul hle hWd (abs_nonneg _) (by norm_num)
      _ = 1/1200 := by norm_num
  have habc : |(p' - pz) * (1 - W') + (q' - qz) * W' +
      (qz - pz) * (W' - Wz)| ≤ 13/3000 := by
    calc |(p' - pz) * (1 - W') + (q' - qz) * W' + (qz - pz) * (W' - Wz)|
        ≤ |(p' - pz) * (1 - W') + (q' - qz) * W'| +
          |(qz - pz) * (W' - Wz)| := abs_add _ _
      _ ≤ |(p' - pz) * (1 - W')| + |(q' - qz) * W'| +
          |(qz - pz) * (W' - Wz)| := by
            have := abs_add ((p' - pz) * (1 - W')) ((q' - qz) * W')
            linarith
      _ ≤ 13/3000 := by linarith
  calc (255:ℚ) * |(p' - pz) * (1 - W') + (q' - qz) * W' +
      (qz - pz) * (W' - Wz)| ≤ 255 * (13/3000) := by
        have h255 : (0:ℚ) ≤ 255 := by norm_num
        exact mul_le_mul_of_nonneg_left habc h255
    _ < 3/2 := by norm_num

theorem hue_channel_est (p' q' pz qz t' tz : ℚ) (X : ℤ)
    (hid : pz + (qz - pz) * hueW (wrap01 tz) = (X : ℚ) / 255)
    (hdp : |p' - pz| ≤ 9/4000) (hdq : |q' - qz| ≤ 1/800)
    (hd0 : 0 ≤ qz - pz) (hd1 : qz - pz ≤ 1)
    (ht1 : -1/3 ≤ t') (ht2 : t' ≤ 4/3) (hz1 : -1/3 ≤ tz) (hz2 : tz ≤ 4/3)
    (hdt : |t' - tz| ≤ 1/7200) :
    |hue2rgb p' q' t' * 255 - (X : ℚ)| < 3/2 := by
  obtain ⟨hw0, hw1⟩ := wrap01_mem t' (by linarith) (by linarith)
  rw [hue2rgb_w_form p' q' t' hw0 hw1]
  have hlip := hueW_wrap_lipschitz t' tz ht1 ht2 hz1 hz2
  have hWm := hueW_mem (wrap01 t')
  exact hue_channel_core p' q' pz qz _ _ X hid hdp hdq hd0 hd1 hWm.1 hWm.2
    (by linarith)

set_option maxHeartbeats 2000000 in
/-- C5: converting an RGB triple with channels in [0, 255] to HSL (with
the code's one-decimal rounding of hue, saturation and lightness) and
back through `hsl_to_rgb` reproduces every channel within ±1. -/
theorem C5_rgb_hsl_roundtrip (rgb : ℤ × ℤ × ℤ)
    (h : 0 ≤ rgb.1 ∧ rgb.1 ≤ 255 ∧ 0 ≤ rgb.2.1 ∧ rgb.2.1 ≤ 255 ∧
      0 ≤ rgb.2.2 ∧ rgb.2.2 ≤ 255) :
    |(hsl_to_rgb (rgb_to_hsl rgb).1 (rgb_to_hsl rgb).2.1
        (rgb_to_hsl rgb).2.2).1 - rgb.1| ≤ 1 ∧
    |(hsl_to_rgb (rgb_to_hsl rgb).1 (rgb_to_hsl rgb).2.1
        (rgb_to_hsl rgb).2.2).2.1 - rgb.2.1| ≤ 1 ∧
    |(hsl_to_rgb (rgb_to_hsl rgb).1 (rgb_to_hsl rgb).2.1
        (rgb_to_hsl rgb).2.2).2.2 - rgb.2.2| ≤ 1 := by
  obtain ⟨hlo, hl1⟩ := lQ_bounds rgb h
  obtain ⟨hrM, hgM, hbM, hmr, hmg, hmb⟩ := chan_le_maxC rgb
  rw [rgb_to_hsl_eq]
  by_cases hgray : maxC rgb = minC rgb
  · rw [if_pos hgray]
    dsimp only
    have hrQ : rQ rgb = maxC rgb := le_antisymm hrM (hgray ▸ hmr)
    have hgQ : gQ rgb = maxC rgb := le_antisymm hgM (hgray ▸ hmg)
    have hbQ : bQ rgb = maxC rgb := le_antisymm hbM (hgray ▸ hmb)
    have hlq : lQ rgb = rQ rgb := by
      unfold lQ
      rw [← hgray, hrQ]
      ring
    have hr255 : (rgb.1 : ℚ) = 255 * lQ rgb := by
      rw [hlq]
      unfold rQ
      field_simp
    have hgr : rgb.2.1 = rgb.1 := by
      have h2 : (rgb.2.1 : ℚ) / 255 = (rgb.1 : ℚ) / 255 := by
        have := hgQ.trans hrQ.symm
        unfold gQ rQ at this
        exact this
      field_simp at h2
      exact_mod_cast h2
    have hbr : rgb.2.2 = rgb.1 := by
      have h2 : (rgb.2.2 : ℚ) / 255 = (rgb.1 : ℚ) / 255 := by
        have := hbQ.trans hrQ.symm
        unfold bQ rQ at this
        exact this
      field_simp at h2
      exact_mod_cast h2
    unfold hsl_to_rgb
    dsimp only
    rw [if_pos (show (0:ℚ)/100 = 0 by norm_num)]
    have key : rhe (round1 (lQ rgb * 100) / 100 * 255) = rgb.1 := by
      apply rhe_eq_of_close
      have hr1 := round1_abs_le (lQ rgb * 100)
      rw [show round1 (lQ rgb * 100) / 100 * 255 - (rgb.1 : ℚ) =
          (51/20) * (round1 (lQ rgb * 100) - lQ rgb * 100) from by
        rw [hr255]; ring]
      rw [abs_mul, abs_of_nonneg (by norm_num : (0:ℚ) ≤ 51/20)]
      linarith
    rw [key, hgr, hbr]
    refine ⟨by simp, by simp, by simp⟩
  · rw [if_neg hgray]
    dsimp only
    obtain ⟨hs0, hs1, hsd2⟩ := sQ_bounds rgb h hgray
    obtain ⟨hh0, hh1⟩ := h0Q_bounds rgb hgray
    have hdge := dQ_ge rgb hgray
    obtain ⟨hm0, hmM, hM1⟩ := minmax_bounds rgb h
    set l' := round1 (lQ rgb * 100) with hl'def
    set s' := round1 (sQ rgb * 100) with hs'def
    set hh' := round1 (h0Q rgb * 360) with hh'def
    have hl'0 : 0 ≤ l' := round1_nonneg _ (by nlinarith)
    have hl'100 : l' ≤ 100 := by
      have := round1_le_int (lQ rgb * 100) 100 (by push_cast; nlinarith)
      push_cast at this
      exact this
    have hs'0 : 0 ≤ s' := round1_nonneg _ (by nlinarith)
    have hh'0 : 0 ≤ hh' := round1_nonneg _ (by nlinarith)
    have hh'360 : hh' ≤ 360 := by
      have := round1_le_int (h0Q rgb * 360) 360 (by push_cast; nlinarith)
      push_cast at this
      exact this
    have hs'pos : 0 < s' := by
      have habs := abs_le.mp (round1_abs_le (sQ rgb * 100))
      rw [← hs'def] at habs
      nlinarith [habs.1]
    have hsnz : ¬ s' / 100 = 0 := ne_of_gt (div_pos hs'pos (by norm_num))
    have hld : |l'/100 - lQ rgb| ≤ 1/2000 := by
      have hr1 := round1_abs_le (lQ rgb * 100)
      rw [← hl'def] at hr1
      rw [show l'/100 - lQ rgb = (l' - lQ rgb * 100) / 100 from by ring,
        abs_div, show |(100:ℚ)| = 100 from by norm_num]
      linarith
    have hsd : |s'/100 - sQ rgb| ≤ 1/2000 := by
      have hr1 := round1_abs_le (sQ rgb * 100)
      rw [← hs'def] at hr1
      rw [show s'/100 - sQ rgb = (s' - sQ rgb * 100) / 100 from by ring,
        abs_div, show |(100:ℚ)| = 100 from by norm_num]
      linarith
    have hhd : |hh'/360 - h0Q rgb| ≤ 1/7200 := by
      have hr1 := round1_abs_le (h0Q rgb * 360)
      rw [← hh'def] at hr1
      rw [show hh'/360 - h0Q rgb = (hh' - h0Q rgb * 360) / 360 from by ring,
        abs_div, show |(360:ℚ)| = 360 from by norm_num]
      linarith
    have hqe := q_exact rgb h hgray
    have hL0 : 0 ≤ l'/100 := div_nonneg hl'0 (by norm_num)
    have hL1 : l'/100 ≤ 1 := by
      rw [div_le_one (by norm_num : (0:ℚ) < 100)]
      exact hl'100
    have hw'0 : 0 ≤ min (l'/100) (1 - l'/100) := le_min hL0 (by linarith)
    have hw'h : min (l'/100) (1 - l'/100) ≤ 1/2 := minself_le_half _
    have hwd : |min (l'/100) (1 - l'/100) - min (lQ rgb) (1 - lQ rgb)| ≤
        1/2000 := le_trans (abs_minself_sub _ _) hld
    have hq' : |(l'/100 + s'/100 * min (l'/100) (1 - l'/100)) - maxC rgb| ≤
        1/800 := by
      rw [show (l'/100 + s'/100 * min (l'/100) (1 - l'/100)) - maxC rgb =
          (l'/100 - lQ rgb) +
            ((s'/100 - sQ rgb) * min (l'/100) (1 - l'/100) +
              sQ rgb * (min (l'/100) (1 - l'/100) -
                min (lQ rgb) (1 - lQ rgb))) from by rw [← hqe]; ring]
      have t1 : |(s'/100 - sQ rgb) * min (l'/100) (1 - l'/100)| ≤
          (1/2000) * (1/2) := by
        rw [abs_mul, abs_of_nonneg hw'0]
        exact mul_le_mul hsd hw'h hw'0 (by norm_num)
      have t2 : |sQ rgb * (min (l'/100) (1 - l'/100) -
          min (lQ rgb) (1 - lQ rgb))| ≤ 1 * (1/2000) := by
        rw [abs_mul, abs_of_nonneg hs0]
        exact mul_le_mul hs1 hwd (abs_nonneg _) (by norm_num)
      refine le_trans (abs_add _ _) ?_
      have hbc := abs_add ((s'/100 - sQ rgb) * min (l'/100) (1 - l'/100))
        (sQ rgb * (min (l'/100) (1 - l'/100) - min (lQ rgb) (1 - lQ rgb)))
      linarith
    have hmc : minC rgb = 2 * lQ rgb - maxC rgb := by
      unfold lQ
      ring
    have hp' : |(2 * (l'/100) -
        (l'/100 + s'/100 * min (l'/100) (1 - l'/100))) - minC rgb| ≤
        9/4000 := by
      rw [show (2 * (l'/100) -
          (l'/100 + s'/100 * min (l'/100) (1 - l'/100))) - minC rgb =
          2 * (l'/100 - lQ rgb) +
            (-((l'/100 + s'/100 * min (l'/100) (1 - l'/100)) - maxC rgb))
          from by rw [hmc]; ring]
      refine le_trans (abs_add _ _) ?_
      rw [abs_neg]
      have h2a : |2 * (l'/100 - lQ rgb)| = 2 * |l'/100 - lQ rgb| := by
        rw [abs_mul]
        norm_num
      linarith
    have hH0 : 0 ≤ hh'/360 := div_nonneg hh'0 (by norm_num)
    have hH1 : hh'/360 ≤ 1 := by
      rw [div_le_one (by norm_num : (0:ℚ) < 360)]
      exact hh'360
    obtain ⟨hid1, hid2, hid3⟩ := hsl_exact_identity rgb hgray
    unfold dQ at hid1 hid2 hid3
    unfold rQ at hid1
    unfold gQ at hid2
    unfold bQ at hid3
    unfold hsl_to_rgb
    dsimp only
    rw [if_neg hsnz, hslq_closed]
    dsimp only
    refine ⟨rhe_close_of_close _ _ ?_, rhe_close_of_close _ _ ?_,
      rhe_close_of_close _ _ ?_⟩
    · exact hue_channel_est
        (2 * (l'/100) - (l'/100 + s'/100 * min (l'/100) (1 - l'/100)))
        (l'/100 + s'/100 * min (l'/100) (1 - l'/100)) (minC rgb) (maxC rgb)
        (hh'/360 + 1/3) (h0Q rgb + 1/3) rgb.1 hid1 hp' hq'
        (by linarith) (by linarith) (by linarith) (by linarith)
        (by linarith) (by linarith)
        (by rw [show hh'/360 + 1/3 - (h0Q rgb + 1/3) = hh'/360 - h0Q rgb
            from by ring]; exact hhd)
    · exact hue_channel_est
        (2 * (l'/100) - (l'/100 + s'/100 * min (l'/100) (1 - l'/100)))
        (l'/100 + s'/100 * min (l'/100) (1 - l'/100)) (minC rgb) (maxC rgb)
        (hh'/360) (h0Q rgb) rgb.2.1 hid2 hp' hq'
        (by linarith) (by linarith) (by linarith) (by linarith)
        (by linarith) (by linarith) hhd
    · exact hue_channel_est
        (2 * (l'/100) - (l'/100 + s'/100 * min (l'/100) (1 - l'/100)))
        (l'/100 + s'/100 * min (l'/100) (1 - l'/100)) (minC rgb) (maxC rgb)
        (hh'/360 - 1/3) (h0Q rgb - 1/3) rgb.2.2 hid3 hp' hq'
        (by linarith) (by linarith) (by linarith) (by linarith)
        (by linarith) (by linarith)
        (by rw [show hh'/360 - 1/3 - (h0Q rgb - 1/3) = hh'/360 - h0Q rgb
            from by ring]; exact hhd)

theorem C5_rgb_hsl_roundtrip_witness :
    (0 ≤ (17:ℤ) ∧ (17:ℤ) ≤ 255 ∧ 0 ≤ (200:ℤ) ∧ (200:ℤ) ≤ 255 ∧
      0 ≤ (51:ℤ) ∧ (51:ℤ) ≤ 255) ∧
    (|(hsl_to_rgb (rgb_to_hsl (17, 200, 51)).1 (rgb_to_hsl (17, 200, 51)).2.1
        (rgb_to_hsl (17, 200, 51)).2.2).1 - 17| ≤ 1 ∧
     |(hsl_to_rgb (rgb_to_hsl (17, 200, 51)).1 (rgb_to_hsl (17, 200, 51)).2.1
        (rgb_to_hsl (17, 200, 51)).2.2).2.1 - 200| ≤ 1 ∧
     |(hsl_to_rgb (rgb_to_hsl (17, 200, 51)).1 (rgb_to_hsl (17, 200, 51)).2.1
        (rgb_to_hsl (17, 200, 51)).2.2).2.2 - 51| ≤ 1) :=
  ⟨by decide, C5_rgb_hsl_roundtrip (17, 200, 51) (by decide)⟩
